import Mathlib

/-
Verification development for the core simulation engine of an NFL season
simulator (source: src/lib.rs).  The relevant Rust items are embedded
shallowly:

- Machine integers (u8 / u16 / u32 / i32) are embedded as Nat / Int.
  Where an overflow or a fallible conversion matters the operation is
  modelled by an explicitly checked variant returning Option.
- HashMap / HashSet values are embedded as Finset / List / total
  functions.  Every place the source iterates a hash container, the
  computed value is order independent (max-percentage filtering,
  commutative record increments, set intersection), except the random
  picks, where the iteration-dependent index is absorbed into the
  explicit random stream.
- Randomness (rand::thread_rng) is an explicit stream rand : Nat → Nat
  together with a counter; gen_range(0..len) is rand k % len, and the
  properties below are proved for every stream, covering every possible
  sequence of draws.
- Functions that can panic return Option; none models the panic.
- f64 uniform draws in [0,1) are embedded as rationals.
-/

structure Team where
  team_id : Int
  abbreviation : String
  name : String
  conference : String
  division : String
deriving DecidableEq, Repr

inductive GameResult where
  | HomeWin
  | AwayWin
  | Tie
deriving DecidableEq, Repr

structure Game where
  game_id : Int
  season_year : Int
  week : Int
  division_game : Bool
  conference_game : Bool
  home_team : Team
  away_team : Team
  game_result : Option GameResult
  is_simulated : Bool
deriving DecidableEq, Repr

structure TeamRecord where
  overall_record : Nat × Nat × Nat
  overall_percent : Nat
  conference_record : Nat × Nat × Nat
  conference_percent : Nat
  division_record : Nat × Nat × Nat
  division_percent : Nat
deriving DecidableEq, Repr

/-- TeamRecord::new -/
def TeamRecord.new : TeamRecord :=
  { overall_record := (0, 0, 0)
    overall_percent := 0
    conference_record := (0, 0, 0)
    conference_percent := 0
    division_record := (0, 0, 0)
    division_percent := 0 }

/-- Season::calculate_percent_from_tuple.  The u8 components are widened to
u32, ties count as half a win, and the zero-games case returns 0.  Values
are embedded as Nat; the checked variant below models the machine-width
concerns. -/
def Season.calculate_percent_from_tuple (record_tuple : Nat × Nat × Nat) : Nat :=
  let wins := record_tuple.1
  let losses := record_tuple.2.1
  let ties := record_tuple.2.2
  let computed_wins := wins * 1000 + ties * 1000 / 2
  let total_games := wins + losses + ties
  if total_games ≠ 0 then computed_wins / (wins + losses + ties) else 0

/-- Upper bound of u32 plus one. -/
def U32_MAX_SUCC : Nat := 4294967296

/-- Upper bound of u16 plus one. -/
def U16_MAX_SUCC : Nat := 65536

/-- u32 multiplication with the overflow check made explicit. -/
def checked_mul_u32 (a b : Nat) : Option Nat :=
  if a * b < U32_MAX_SUCC then some (a * b) else none

/-- u32 addition with the overflow check made explicit. -/
def checked_add_u32 (a b : Nat) : Option Nat :=
  if a + b < U32_MAX_SUCC then some (a + b) else none

/-- u16::try_from on a u32 value. -/
def u16_try_from (n : Nat) : Option Nat :=
  if n < U16_MAX_SUCC then some n else none

/-- Season::calculate_percent_from_tuple with every machine-width concern
(u32 multiply/add overflow, u16::try_from) modelled as a checked step. -/
def Season.calculate_percent_from_tuple_checked (record_tuple : Nat × Nat × Nat) : Option Nat :=
  let wins := record_tuple.1
  let losses := record_tuple.2.1
  let ties := record_tuple.2.2
  match checked_mul_u32 wins 1000 with
  | none => none
  | some wm =>
    match checked_mul_u32 ties 1000 with
    | none => none
    | some tm =>
      match checked_add_u32 wm (tm / 2) with
      | none => none
      | some computed_wins =>
        match checked_add_u32 wins losses with
        | none => none
        | some wl =>
          match checked_add_u32 wl ties with
          | none => none
          | some total_games =>
            if total_games ≠ 0 then u16_try_from (computed_wins / total_games)
            else some 0

/-- C4: calculate_percent_from_tuple returns floor((wins*1000 + ties*500) /
(wins+losses+ties)) for a nonzero total and 0 for a zero total; the four
listed concrete values hold; and for a fixed total number of games the
result is monotonically non-decreasing in wins and non-increasing in
losses. -/
theorem claim4_percent_values :
    (∀ w l t : Nat, w < 256 → l < 256 → t < 256 →
      (w + l + t ≠ 0 →
        Season.calculate_percent_from_tuple (w, l, t) = (w * 1000 + t * 500) / (w + l + t)) ∧
      (w + l + t = 0 → Season.calculate_percent_from_tuple (w, l, t) = 0)) ∧
    Season.calculate_percent_from_tuple (0, 0, 0) = 0 ∧
    Season.calculate_percent_from_tuple (1, 0, 0) = 1000 ∧
    Season.calculate_percent_from_tuple (1, 1, 0) = 500 ∧
    Season.calculate_percent_from_tuple (0, 0, 1) = 500 ∧
    (∀ w1 l1 t1 w2 l2 t2 : Nat, w1 ≤ w2 → t1 ≤ t2 → w1 + l1 + t1 = w2 + l2 + t2 →
      Season.calculate_percent_from_tuple (w1, l1, t1) ≤
        Season.calculate_percent_from_tuple (w2, l2, t2)) ∧
    (∀ w l1 t1 l2 t2 : Nat, l1 ≤ l2 → w + l1 + t1 = w + l2 + t2 →
      Season.calculate_percent_from_tuple (w, l2, t2) ≤
        Season.calculate_percent_from_tuple (w, l1, t1)) := by
  refine ⟨?_, by decide, by decide, by decide, by decide, ?_, ?_⟩
  · intro w l t _ _ _
    constructor
    · intro h
      simp only [Season.calculate_percent_from_tuple, if_pos h]
      have : t * 1000 / 2 = t * 500 := by omega
      rw [this]
    · intro h
      simp only [Season.calculate_percent_from_tuple]
      rw [if_neg (by omega)]
  · intro w1 l1 t1 w2 l2 t2 hw ht htot
    simp only [Season.calculate_percent_from_tuple]
    by_cases h : w1 + l1 + t1 = 0
    · rw [if_neg (by omega)]
      exact Nat.zero_le _
    · rw [if_pos (by omega), if_pos (by omega), ← htot]
      exact Nat.div_le_div_right (by omega)
  · intro w l1 t1 l2 t2 hl htot
    simp only [Season.calculate_percent_from_tuple]
    by_cases h : w + l1 + t1 = 0
    · rw [if_neg (by omega), if_neg (by omega)]
    · rw [if_pos (by omega), if_pos (by omega), htot]
      exact Nat.div_le_div_right (by omega)

/-- Witness for C4: the closed-form, monotonicity and anti-monotonicity
statements applied at concrete records. -/
theorem claim4_witness :
    Season.calculate_percent_from_tuple (3, 2, 1) = (3 * 1000 + 1 * 500) / 6 ∧
    Season.calculate_percent_from_tuple (1, 2, 1) ≤
      Season.calculate_percent_from_tuple (2, 1, 1) ∧
    Season.calculate_percent_from_tuple (2, 2, 0) ≤
      Season.calculate_percent_from_tuple (2, 1, 1) :=
  ⟨(claim4_percent_values.1 3 2 1 (by decide) (by decide) (by decide)).1 (by decide),
   claim4_percent_values.2.2.2.2.2.1 1 2 1 2 1 1 (by decide) (by decide) (by decide),
   claim4_percent_values.2.2.2.2.2.2 2 1 1 2 0 (by decide) (by decide)⟩

/-- C10: for u8 inputs the checked computation never fails: no u32
overflow is possible, the division is guarded, and u16::try_from always
succeeds; the value agrees with the unchecked function. -/
theorem claim10_percent_total (w l t : Nat) (hw : w < 256) (hl : l < 256) (ht : t < 256) :
    Season.calculate_percent_from_tuple_checked (w, l, t) =
      some (Season.calculate_percent_from_tuple (w, l, t)) := by
  have h1 : w * 1000 < U32_MAX_SUCC := by simp only [U32_MAX_SUCC]; omega
  have h2 : t * 1000 < U32_MAX_SUCC := by simp only [U32_MAX_SUCC]; omega
  have h3 : w * 1000 + t * 1000 / 2 < U32_MAX_SUCC := by simp only [U32_MAX_SUCC]; omega
  have h4 : w + l < U32_MAX_SUCC := by simp only [U32_MAX_SUCC]; omega
  have h5 : w + l + t < U32_MAX_SUCC := by simp only [U32_MAX_SUCC]; omega
  simp only [Season.calculate_percent_from_tuple_checked, Season.calculate_percent_from_tuple,
    checked_mul_u32, checked_add_u32, if_pos h1, if_pos h2, if_pos h3, if_pos h4, if_pos h5]
  by_cases h : w + l + t = 0
  · rw [if_neg (by omega), if_neg (by omega)]
  · rw [if_pos h, if_pos h]
    have hbound : (w * 1000 + t * 1000 / 2) / (w + l + t) ≤ 1000 := by
      have hle : w * 1000 + t * 1000 / 2 ≤ (w + l + t) * 1000 := by omega
      calc (w * 1000 + t * 1000 / 2) / (w + l + t)
          ≤ (w + l + t) * 1000 / (w + l + t) := Nat.div_le_div_right hle
        _ = 1000 := Nat.mul_div_cancel_left 1000 (by omega)
    simp only [u16_try_from, U16_MAX_SUCC]
    rw [if_pos (by omega)]

/-- Witness for C10: the checked computation on a concrete u8 record. -/
theorem claim10_witness :
    Season.calculate_percent_from_tuple_checked (255, 0, 255) =
      some (Season.calculate_percent_from_tuple (255, 0, 255)) :=
  claim10_percent_total 255 0 255 (by decide) (by decide) (by decide)

/-- Game::simulate_if_undecided.  The two rand::Rng::gen::<f64>() draws,
uniform in [0,1), are passed in as rationals.  A game whose game_result is
already Some is returned unchanged; otherwise the first draw is compared
(with <=, as in the source) against the fixed tie likelihood 0.003421, the
second draw against 0.5, and is_simulated is set. -/
def Game.simulate_if_undecided (g : Game) (tie_predictor win_predictor : ℚ) : Game :=
  if g.game_result = none then
    let tie_likelihood : ℚ := 3421 / 1000000
    let game_result : Option GameResult :=
      if tie_predictor ≤ tie_likelihood then some GameResult.Tie
      else if win_predictor < 1 / 2 then some GameResult.HomeWin
      else if 1 / 2 ≤ win_predictor then some GameResult.AwayWin
      else none
    { g with game_result := game_result, is_simulated := true }
  else g

/-- Season::simulate_for_game, preparation part: clone the authoritative
schedule into the batch's base games and overwrite the conditioning game's
result with the forced one (get_mut(..).unwrap() panics if the game id is
absent, modelled by none).  The games map is embedded as a list. -/
def Season.simulate_for_game_base (actual_games : List Game) (game_id : Int)
    (game_result : GameResult) : Option (List Game) :=
  if actual_games.any (fun g => g.game_id = game_id) then
    some (actual_games.map (fun g =>
      if g.game_id = game_id then { g with game_result := some game_result } else g))
  else none

/-- Season::run_simulation, randomization part: every game of the cloned
base set is passed through simulate_if_undecided, each with a fresh pair
of draws from the streams. -/
def Season.run_simulation_games (tie_draws win_draws : Nat → ℚ) :
    List Game → Nat → List Game
  | [], _ => []
  | game :: rest, i =>
      Game.simulate_if_undecided game (tie_draws i) (win_draws i) ::
        Season.run_simulation_games tie_draws win_draws rest (i + 1)

/-- C9 counterexample: at a first draw exactly equal to the tie likelihood
0.003421 the code produces a Tie (the source compares with <=), although
the draw does not fall strictly below the threshold, so with the second
draw at 3/4 the claim would demand AwayWin. -/
theorem claim9_counterexample :
    (Game.simulate_if_undecided
      { game_id := 1, season_year := 2023, week := 1, division_game := false,
        conference_game := false,
        home_team := { team_id := 1, abbreviation := "A", name := "A", conference := "C",
                       division := "D" },
        away_team := { team_id := 2, abbreviation := "B", name := "B", conference := "C",
                       division := "D" },
        game_result := none, is_simulated := false }
      (3421 / 1000000) (3 / 4)).game_result = some GameResult.Tie ∧
    ¬((3421 : ℚ) / 1000000 < 3421 / 1000000) ∧ ((1 : ℚ) / 2 ≤ 3 / 4) := by
  refine ⟨?_, by norm_num, by norm_num⟩
  simp only [Game.simulate_if_undecided, if_pos rfl]
  norm_num

/-- C9 (amended: the tie branch is taken when the first draw is at most
the tie likelihood, not strictly below it): for an undecided game the
result becomes Tie when tie_predictor <= 0.003421, otherwise HomeWin when
win_predictor < 0.5 and AwayWin when win_predictor >= 0.5; the game is
marked simulated and always ends with some result; a game already
carrying a result is returned entirely unchanged. -/
theorem claim9_simulate_if_undecided (g : Game) (tp wp : ℚ) :
    (g.game_result = none →
      (Game.simulate_if_undecided g tp wp).game_result =
        some (if tp ≤ 3421 / 1000000 then GameResult.Tie
              else if wp < 1 / 2 then GameResult.HomeWin else GameResult.AwayWin) ∧
      (Game.simulate_if_undecided g tp wp).is_simulated = true ∧
      (Game.simulate_if_undecided g tp wp) =
        { g with game_result := (Game.simulate_if_undecided g tp wp).game_result,
                 is_simulated := true }) ∧
    (g.game_result ≠ none → Game.simulate_if_undecided g tp wp = g) := by
  constructor
  · intro h
    simp only [Game.simulate_if_undecided, if_pos h]
    refine ⟨?_, by trivial, by trivial⟩
    split_ifs with h1 h2 h3
    · rfl
    · rfl
    · rfl
    · exact absurd (le_of_not_lt h2) h3
  · intro h
    simp only [Game.simulate_if_undecided, if_neg h]

/-- Witness for C9's amended theorem at a concrete undecided game and a
concrete decided game. -/
theorem claim9_witness :
    (Game.simulate_if_undecided
      { game_id := 1, season_year := 2023, week := 1, division_game := false,
        conference_game := false,
        home_team := { team_id := 1, abbreviation := "A", name := "A", conference := "C",
                       division := "D" },
        away_team := { team_id := 2, abbreviation := "B", name := "B", conference := "C",
                       division := "D" },
        game_result := none, is_simulated := false }
      (1 / 2) (3 / 4)).game_result =
      some (if (1 : ℚ) / 2 ≤ 3421 / 1000000 then GameResult.Tie
            else if (3 : ℚ) / 4 < 1 / 2 then GameResult.HomeWin else GameResult.AwayWin) ∧
    Game.simulate_if_undecided
      { game_id := 1, season_year := 2023, week := 1, division_game := false,
        conference_game := false,
        home_team := { team_id := 1, abbreviation := "A", name := "A", conference := "C",
                       division := "D" },
        away_team := { team_id := 2, abbreviation := "B", name := "B", conference := "C",
                       division := "D" },
        game_result := some GameResult.HomeWin, is_simulated := false }
      (1 / 2) (3 / 4) =
      { game_id := 1, season_year := 2023, week := 1, division_game := false,
        conference_game := false,
        home_team := { team_id := 1, abbreviation := "A", name := "A", conference := "C",
                       division := "D" },
        away_team := { team_id := 2, abbreviation := "B", name := "B", conference := "C",
                       division := "D" },
        game_result := some GameResult.HomeWin, is_simulated := false } :=
  ⟨((claim9_simulate_if_undecided _ (1 / 2) (3 / 4)).1 rfl).1,
   (claim9_simulate_if_undecided _ (1 / 2) (3 / 4)).2 (by simp)⟩

/-- The randomizer never touches a game that already carries a result. -/
theorem simulate_if_undecided_of_isSome (g : Game) (tp wp : ℚ)
    (h : g.game_result.isSome) : Game.simulate_if_undecided g tp wp = g := by
  simp only [Game.simulate_if_undecided]
  rw [if_neg]
  intro hnone
  rw [hnone] at h
  simp at h

/-- The randomizer preserves the game id. -/
theorem simulate_if_undecided_game_id (g : Game) (tp wp : ℚ) :
    (Game.simulate_if_undecided g tp wp).game_id = g.game_id := by
  simp only [Game.simulate_if_undecided]
  split_ifs <;> rfl

/-- Positional description of run_simulation_games: position j holds the
randomization of the base game at position j. -/
theorem run_simulation_games_get? (tie_draws win_draws : Nat → ℚ) :
    ∀ (l : List Game) (i j : Nat),
      (Season.run_simulation_games tie_draws win_draws l i).get? j =
        (l.get? j).map (fun g =>
          Game.simulate_if_undecided g (tie_draws (i + j)) (win_draws (i + j))) := by
  intro l
  induction l with
  | nil => intro i j; simp [Season.run_simulation_games]
  | cons g rest ih =>
      intro i j
      cases j with
      | zero => simp [Season.run_simulation_games]
      | succ j' =>
          simp only [Season.run_simulation_games, List.get?_cons_succ]
          rw [ih (i + 1) j']
          have harith : i + 1 + j' = i + (j' + 1) := by omega
          rw [harith]

/-- Every member of the randomized list is the randomization of a base
game. -/
theorem run_simulation_games_mem (tie_draws win_draws : Nat → ℚ) :
    ∀ (l : List Game) (i : Nat) (g' : Game),
      g' ∈ Season.run_simulation_games tie_draws win_draws l i →
      ∃ g ∈ l, ∃ j, g' = Game.simulate_if_undecided g (tie_draws j) (win_draws j) := by
  intro l
  induction l with
  | nil => intro i g' h; simp [Season.run_simulation_games] at h
  | cons g rest ih =>
      intro i g' h
      simp only [Season.run_simulation_games, List.mem_cons] at h
      rcases h with h | h
      · exact ⟨g, List.mem_cons_self g rest, i, h⟩
      · obtain ⟨g0, hg0, j, hj⟩ := ih (i + 1) g' h
        exact ⟨g0, List.mem_cons_of_mem _ hg0, j, hj⟩

/-- In the forced base game set, every game carrying the conditioning id
carries the forced result. -/
theorem simulate_for_game_base_forced (actual_games base : List Game) (game_id : Int)
    (game_result : GameResult)
    (hbase : Season.simulate_for_game_base actual_games game_id game_result = some base) :
    ∀ g ∈ base, g.game_id = game_id → g.game_result = some game_result := by
  simp only [Season.simulate_for_game_base] at hbase
  split at hbase
  · intro g hg hid
    rw [Option.some_inj] at hbase
    subst hbase
    obtain ⟨a, _, ha⟩ := List.mem_map.mp hg
    by_cases hcase : a.game_id = game_id
    · rw [if_pos hcase] at ha
      rw [← ha]
    · rw [if_neg hcase] at ha
      rw [← ha] at hid
      exact absurd hid hcase
  · exact absurd hbase (by simp)

/-- C7: under a conditioning query the forced game is observed with the
forced result in every trial's working game set, games that already carry
a result in the batch's base game set keep it unchanged through
randomization, and simulate_if_undecided never modifies a game whose
result is already Some. -/
theorem claim7_conditioning (actual_games base : List Game) (game_id : Int)
    (game_result : GameResult) (tie_draws win_draws : Nat → ℚ)
    (hbase : Season.simulate_for_game_base actual_games game_id game_result = some base) :
    (∀ i, ∀ g' ∈ Season.run_simulation_games tie_draws win_draws base i,
        g'.game_id = game_id → g'.game_result = some game_result) ∧
    (∀ i j g res, base.get? j = some g → g.game_result = some res →
        (Season.run_simulation_games tie_draws win_draws base i).get? j = some g) ∧
    (∀ g tp wp, g.game_result.isSome → Game.simulate_if_undecided g tp wp = g) := by
  refine ⟨?_, ?_, fun g tp wp h => simulate_if_undecided_of_isSome g tp wp h⟩
  · intro i g' hmem hid
    obtain ⟨g, hg, j, hj⟩ := run_simulation_games_mem tie_draws win_draws base i g' hmem
    have hgid : g.game_id = game_id := by
      rw [← hid, hj, simulate_if_undecided_game_id]
    have hres : g.game_result = some game_result :=
      simulate_for_game_base_forced actual_games base game_id game_result hbase g hg hgid
    have huntouched : Game.simulate_if_undecided g (tie_draws j) (win_draws j) = g :=
      simulate_if_undecided_of_isSome g _ _ (by rw [hres]; rfl)
    rw [hj, huntouched, hres]
  · intro i j g res hget hres
    rw [run_simulation_games_get? tie_draws win_draws base i j, hget]
    simp only [Option.map_some']
    rw [simulate_if_undecided_of_isSome g _ _ (by rw [hres]; rfl)]

/-- Example team fixture (AFC East). -/
def team1 : Team :=
  { team_id := 1, abbreviation := "T1", name := "Team 1", conference := "AFC",
    division := "AFC East" }

/-- Example team fixture (AFC East). -/
def team2 : Team :=
  { team_id := 2, abbreviation := "T2", name := "Team 2", conference := "AFC",
    division := "AFC East" }

/-- Example team fixture (AFC East). -/
def team3 : Team :=
  { team_id := 3, abbreviation := "T3", name := "Team 3", conference := "AFC",
    division := "AFC East" }

/-- Game constructor mirroring Game::new_from_db_row: the division_game and
conference_game flags are derived from the two teams' labels at load
time. -/
def mk_game (gid : Int) (home away : Team) (res : Option GameResult) : Game :=
  { game_id := gid, season_year := 2023, week := 1,
    division_game := home.division == away.division,
    conference_game := home.conference == away.conference,
    home_team := home, away_team := away, game_result := res, is_simulated := false }

/-- Witness for C7: for the concrete two-game schedule with game 10 forced
to AwayWin, the decided game at position 1 passes through randomization
unchanged, and the randomizer leaves a decided game untouched. -/
theorem claim7_witness :
    (Season.run_simulation_games (fun _ => 1 / 3) (fun _ => 2 / 3)
        [mk_game 10 team1 team2 (some GameResult.AwayWin),
         mk_game 11 team2 team3 (some GameResult.HomeWin)] 0).get? 1 =
      some (mk_game 11 team2 team3 (some GameResult.HomeWin)) ∧
    Game.simulate_if_undecided (mk_game 11 team2 team3 (some GameResult.HomeWin))
        (1 / 3) (2 / 3) =
      mk_game 11 team2 team3 (some GameResult.HomeWin) := by
  have h := claim7_conditioning
    [mk_game 10 team1 team2 none, mk_game 11 team2 team3 (some GameResult.HomeWin)]
    [mk_game 10 team1 team2 (some GameResult.AwayWin),
     mk_game 11 team2 team3 (some GameResult.HomeWin)]
    10 GameResult.AwayWin (fun _ => 1 / 3) (fun _ => 2 / 3) (by decide)
  exact ⟨h.2.1 0 1 (mk_game 11 team2 team3 (some GameResult.HomeWin)) GameResult.HomeWin
      (by decide) (by decide),
    h.2.2 (mk_game 11 team2 team3 (some GameResult.HomeWin)) (1 / 3) (2 / 3) (by decide)⟩

/-- Win increment of Season::populate_records: overall always, conference
and division only when the corresponding game flag is set. -/
def record_add_win (game : Game) (r : TeamRecord) : TeamRecord :=
  { r with
    overall_record := (r.overall_record.1 + 1, r.overall_record.2.1, r.overall_record.2.2),
    conference_record :=
      if game.conference_game then
        (r.conference_record.1 + 1, r.conference_record.2.1, r.conference_record.2.2)
      else r.conference_record,
    division_record :=
      if game.division_game then
        (r.division_record.1 + 1, r.division_record.2.1, r.division_record.2.2)
      else r.division_record }

/-- Loss increment of Season::populate_records. -/
def record_add_loss (game : Game) (r : TeamRecord) : TeamRecord :=
  { r with
    overall_record := (r.overall_record.1, r.overall_record.2.1 + 1, r.overall_record.2.2),
    conference_record :=
      if game.conference_game then
        (r.conference_record.1, r.conference_record.2.1 + 1, r.conference_record.2.2)
      else r.conference_record,
    division_record :=
      if game.division_game then
        (r.division_record.1, r.division_record.2.1 + 1, r.division_record.2.2)
      else r.division_record }

/-- Tie increment of Season::populate_records. -/
def record_add_tie (game : Game) (r : TeamRecord) : TeamRecord :=
  { r with
    overall_record := (r.overall_record.1, r.overall_record.2.1, r.overall_record.2.2 + 1),
    conference_record :=
      if game.conference_game then
        (r.conference_record.1, r.conference_record.2.1, r.conference_record.2.2 + 1)
      else r.conference_record,
    division_record :=
      if game.division_game then
        (r.division_record.1, r.division_record.2.1, r.division_record.2.2 + 1)
      else r.division_record }

/-- The team_records.get_mut(..).unwrap() pattern: the update fails (none,
modelling the panic) when the team id has no entry; the record map is
embedded as a total function whose meaningful domain is the teams list. -/
def update_team_record (teams : List Int) (recs : Int → TeamRecord) (team_id : Int)
    (f : TeamRecord → TeamRecord) : Option (Int → TeamRecord) :=
  if team_id ∈ teams then some (Function.update recs team_id (f (recs team_id))) else none

/-- One game of Season::populate_records: HomeWin credits the home side
with a win and the away side with a loss, AwayWin symmetrically, Tie
credits both sides with a tie (winning_team/losing_team are both None and
the two None match arms update home then away); a game without a result
panics ("Game not simulated yet"), modelled by none. -/
def Season.populate_step (teams : List Int) (recs : Int → TeamRecord) (game : Game) :
    Option (Int → TeamRecord) :=
  match game.game_result with
  | some GameResult.HomeWin =>
      match update_team_record teams recs game.home_team.team_id (record_add_win game) with
      | none => none
      | some r1 => update_team_record teams r1 game.away_team.team_id (record_add_loss game)
  | some GameResult.AwayWin =>
      match update_team_record teams recs game.away_team.team_id (record_add_win game) with
      | none => none
      | some r1 => update_team_record teams r1 game.home_team.team_id (record_add_loss game)
  | some GameResult.Tie =>
      match update_team_record teams recs game.home_team.team_id (record_add_tie game) with
      | none => none
      | some r1 => update_team_record teams r1 game.away_team.team_id (record_add_tie game)
  | none => none

/-- Season::populate_records: every team starts from TeamRecord::new, then
every game of the trial's game set is folded in. -/
def Season.populate_records (teams : List Int) (games : List Game) :
    Option (Int → TeamRecord) :=
  games.foldlM (Season.populate_step teams) (fun _ => TeamRecord.new)

/-- An Option-valued fold is none exactly when some list element's step
fails, provided each step's failure condition is state independent. -/
theorem foldlM_option_none_iff {α β : Type} (f : β → α → Option β) (P : α → Prop) :
    ∀ (l : List α) (b : β), (∀ a ∈ l, ∀ b', (f b' a = none ↔ P a)) →
      (l.foldlM f b = none ↔ ∃ a ∈ l, P a) := by
  intro l
  induction l with
  | nil =>
      intro b _
      simp
  | cons a t ih =>
      intro b h
      rw [List.foldlM_cons]
      cases hfa : f b a with
      | none =>
          simp only [Option.bind_eq_bind, Option.none_bind]
          constructor
          · intro _
            exact ⟨a, List.mem_cons_self a t, (h a (List.mem_cons_self a t) b).mp hfa⟩
          · intro _
            trivial
      | some b' =>
          simp only [Option.bind_eq_bind, Option.some_bind]
          rw [ih b' (fun x hx => h x (List.mem_cons_of_mem a hx))]
          constructor
          · rintro ⟨x, hx, hPx⟩
            exact ⟨x, List.mem_cons_of_mem a hx, hPx⟩
          · rintro ⟨x, hx, hPx⟩
            rcases List.mem_cons.mp hx with rfl | hx'
            · have := (h x (List.mem_cons_self x t) b).mpr hPx
              rw [this] at hfa
              exact absurd hfa (by simp)
            · exact ⟨x, hx', hPx⟩

/-- An Option-valued fold succeeds when every step succeeds from every
state. -/
theorem foldlM_option_isSome {α β : Type} (f : β → α → Option β) :
    ∀ (l : List α) (b : β), (∀ a ∈ l, ∀ b', (f b' a).isSome) → (l.foldlM f b).isSome := by
  intro l
  induction l with
  | nil =>
      intro b _
      simp
  | cons a t ih =>
      intro b h
      rw [List.foldlM_cons]
      cases hfa : f b a with
      | none =>
          have := h a (List.mem_cons_self a t) b
          rw [hfa] at this
          simp at this
      | some b' =>
          simp only [Option.bind_eq_bind, Option.some_bind]
          exact ih b' (fun x hx => h x (List.mem_cons_of_mem a hx))

/-- populate_step fails exactly on a resultless game, as long as both
participants have record entries. -/
theorem populate_step_none_iff (teams : List Int) (recs : Int → TeamRecord) (g : Game)
    (hh : g.home_team.team_id ∈ teams) (ha : g.away_team.team_id ∈ teams) :
    (Season.populate_step teams recs g = none ↔ g.game_result = none) := by
  cases hres : g.game_result with
  | none => simp [Season.populate_step, hres]
  | some r =>
      cases r <;>
        simp [Season.populate_step, hres, update_team_record, if_pos hh, if_pos ha]

/-- C8: populate_records fails (panic "Game not simulated yet") exactly
when some game of the trial's game set has no result; on a decided game
the winner's records gain a win and the loser's a loss (conference and
division records only when the corresponding game flag is set), a Tie adds
a tie to both participants, and no other team's record changes; the
increment helpers themselves touch exactly the overall record plus the
flagged conference/division records. -/
theorem claim8_populate_records (teams : List Int) (games : List Game)
    (hteams : ∀ g ∈ games, g.home_team.team_id ∈ teams ∧ g.away_team.team_id ∈ teams) :
    (Season.populate_records teams games = none ↔ ∃ g ∈ games, g.game_result = none) ∧
    (∀ (recs : Int → TeamRecord) (g : Game),
      g.home_team.team_id ∈ teams → g.away_team.team_id ∈ teams →
      g.home_team.team_id ≠ g.away_team.team_id →
      (g.game_result = some GameResult.HomeWin →
        ∃ recs', Season.populate_step teams recs g = some recs' ∧
          recs' g.home_team.team_id = record_add_win g (recs g.home_team.team_id) ∧
          recs' g.away_team.team_id = record_add_loss g (recs g.away_team.team_id) ∧
          ∀ t, t ≠ g.home_team.team_id → t ≠ g.away_team.team_id → recs' t = recs t) ∧
      (g.game_result = some GameResult.AwayWin →
        ∃ recs', Season.populate_step teams recs g = some recs' ∧
          recs' g.away_team.team_id = record_add_win g (recs g.away_team.team_id) ∧
          recs' g.home_team.team_id = record_add_loss g (recs g.home_team.team_id) ∧
          ∀ t, t ≠ g.home_team.team_id → t ≠ g.away_team.team_id → recs' t = recs t) ∧
      (g.game_result = some GameResult.Tie →
        ∃ recs', Season.populate_step teams recs g = some recs' ∧
          recs' g.home_team.team_id = record_add_tie g (recs g.home_team.team_id) ∧
          recs' g.away_team.team_id = record_add_tie g (recs g.away_team.team_id) ∧
          ∀ t, t ≠ g.home_team.team_id → t ≠ g.away_team.team_id → recs' t = recs t)) ∧
    (∀ (g : Game) (r : TeamRecord),
      (record_add_win g r).overall_record =
        (r.overall_record.1 + 1, r.overall_record.2.1, r.overall_record.2.2) ∧
      (record_add_win g r).conference_record =
        (if g.conference_game then
          (r.conference_record.1 + 1, r.conference_record.2.1, r.conference_record.2.2)
         else r.conference_record) ∧
      (record_add_win g r).division_record =
        (if g.division_game then
          (r.division_record.1 + 1, r.division_record.2.1, r.division_record.2.2)
         else r.division_record) ∧
      (record_add_loss g r).overall_record =
        (r.overall_record.1, r.overall_record.2.1 + 1, r.overall_record.2.2) ∧
      (record_add_loss g r).conference_record =
        (if g.conference_game then
          (r.conference_record.1, r.conference_record.2.1 + 1, r.conference_record.2.2)
         else r.conference_record) ∧
      (record_add_loss g r).division_record =
        (if g.division_game then
          (r.division_record.1, r.division_record.2.1 + 1, r.division_record.2.2)
         else r.division_record) ∧
      (record_add_tie g r).overall_record =
        (r.overall_record.1, r.overall_record.2.1, r.overall_record.2.2 + 1) ∧
      (record_add_tie g r).conference_record =
        (if g.conference_game then
          (r.conference_record.1, r.conference_record.2.1, r.conference_record.2.2 + 1)
         else r.conference_record) ∧
      (record_add_tie g r).division_record =
        (if g.division_game then
          (r.division_record.1, r.division_record.2.1, r.division_record.2.2 + 1)
         else r.division_record)) := by
  refine ⟨?_, ?_, fun g r => ⟨rfl, rfl, rfl, rfl, rfl, rfl, rfl, rfl, rfl⟩⟩
  · exact foldlM_option_none_iff (Season.populate_step teams)
      (fun g => g.game_result = none) games (fun _ => TeamRecord.new)
      (fun g hg recs => populate_step_none_iff teams recs g (hteams g hg).1 (hteams g hg).2)
  · intro recs g hh ha hne
    refine ⟨?_, ?_, ?_⟩
    · intro hres
      simp only [Season.populate_step, hres, update_team_record, if_pos hh, if_pos ha]
      refine ⟨_, rfl, ?_, ?_, ?_⟩
      · rw [Function.update_noteq hne, Function.update_same]
      · rw [Function.update_same, Function.update_noteq (Ne.symm hne)]
      · intro t ht1 ht2
        rw [Function.update_noteq ht2, Function.update_noteq ht1]
    · intro hres
      simp only [Season.populate_step, hres, update_team_record, if_pos hh, if_pos ha]
      refine ⟨_, rfl, ?_, ?_, ?_⟩
      · rw [Function.update_noteq (Ne.symm hne), Function.update_same]
      · rw [Function.update_same, Function.update_noteq hne]
      · intro t ht1 ht2
        rw [Function.update_noteq ht1, Function.update_noteq ht2]
    · intro hres
      simp only [Season.populate_step, hres, update_team_record, if_pos hh, if_pos ha]
      refine ⟨_, rfl, ?_, ?_, ?_⟩
      · rw [Function.update_noteq hne, Function.update_same]
      · rw [Function.update_same, Function.update_noteq (Ne.symm hne)]
      · intro t ht1 ht2
        rw [Function.update_noteq ht2, Function.update_noteq ht1]

/-- Witness for C8: the failure iff and the HomeWin increment at a
concrete one-game schedule. -/
theorem claim8_witness :
    (Season.populate_records [1, 2] [mk_game 100 team1 team2 (some GameResult.HomeWin)] = none ↔
      ∃ g ∈ [mk_game 100 team1 team2 (some GameResult.HomeWin)], g.game_result = none) ∧
    (∃ recs', Season.populate_step [1, 2] (fun _ => TeamRecord.new)
          (mk_game 100 team1 team2 (some GameResult.HomeWin)) = some recs' ∧
        recs' (mk_game 100 team1 team2 (some GameResult.HomeWin)).home_team.team_id =
          record_add_win (mk_game 100 team1 team2 (some GameResult.HomeWin))
            ((fun _ => TeamRecord.new) (mk_game 100 team1 team2
              (some GameResult.HomeWin)).home_team.team_id) ∧
        recs' (mk_game 100 team1 team2 (some GameResult.HomeWin)).away_team.team_id =
          record_add_loss (mk_game 100 team1 team2 (some GameResult.HomeWin))
            ((fun _ => TeamRecord.new) (mk_game 100 team1 team2
              (some GameResult.HomeWin)).away_team.team_id) ∧
        ∀ t, t ≠ (mk_game 100 team1 team2 (some GameResult.HomeWin)).home_team.team_id →
          t ≠ (mk_game 100 team1 team2 (some GameResult.HomeWin)).away_team.team_id →
          recs' t = (fun _ => TeamRecord.new) t) := by
  have h := claim8_populate_records [1, 2]
    [mk_game 100 team1 team2 (some GameResult.HomeWin)]
    (by intro g hg; simp only [List.mem_singleton] at hg; subst hg; exact ⟨by decide, by decide⟩)
  exact ⟨h.1,
    (h.2.1 (fun _ => TeamRecord.new) (mk_game 100 team1 team2 (some GameResult.HomeWin))
      (by decide) (by decide) (by decide)).1 rfl⟩

/-- Insertion of an element into an ascending list (kernel-computable
enumeration helper: the source collects a HashSet into a Vec in
unspecified order; this embedding fixes the ascending order, and every
random-dependent consequence is quantified over the whole stream). -/
def ins_le (a : Int) : List Int → List Int
  | [] => [a]
  | b :: t => if a ≤ b then a :: b :: t else b :: ins_le a t

/-- Insertion sort on Int lists. -/
def isort : List Int → List Int
  | [] => []
  | a :: t => ins_le a (isort t)

theorem ins_le_perm (a : Int) : ∀ l : List Int, List.Perm (ins_le a l) (a :: l) := by
  intro l
  induction l with
  | nil => exact List.Perm.refl _
  | cons b t ih =>
      simp only [ins_le]
      split_ifs
      · exact List.Perm.refl _
      · exact (List.Perm.cons b ih).trans (List.Perm.swap a b t)

theorem isort_perm : ∀ l : List Int, List.Perm (isort l) l := by
  intro l
  induction l with
  | nil => exact List.Perm.refl _
  | cons a t ih =>
      exact (ins_le_perm a (isort t)).trans (List.Perm.cons a ih)

theorem ins_le_sorted (a : Int) : ∀ l : List Int, l.Sorted (· ≤ ·) →
    (ins_le a l).Sorted (· ≤ ·) := by
  intro l
  induction l with
  | nil => intro _; simp [ins_le]
  | cons b t ih =>
      intro hs
      rw [List.sorted_cons] at hs
      simp only [ins_le]
      split_ifs with hab
      · rw [List.sorted_cons]
        refine ⟨?_, List.sorted_cons.mpr hs⟩
        intro x hx
        rcases List.mem_cons.mp hx with rfl | hx'
        · exact hab
        · exact hab.trans (hs.1 x hx')
      · rw [List.sorted_cons]
        refine ⟨?_, ih hs.2⟩
        intro x hx
        have hx' := (ins_le_perm a t).mem_iff.mp hx
        rcases List.mem_cons.mp hx' with rfl | hx''
        · exact le_of_not_le hab
        · exact hs.1 x hx''

theorem isort_sorted : ∀ l : List Int, (isort l).Sorted (· ≤ ·) := by
  intro l
  induction l with
  | nil => simp [isort]
  | cons a t ih => exact ins_le_sorted a (isort t) ih

theorem isort_eq_of_perm {l1 l2 : List Int} (h : List.Perm l1 l2) : isort l1 = isort l2 :=
  List.eq_of_perm_of_sorted ((isort_perm l1).trans (h.trans (isort_perm l2).symm))
    (isort_sorted l1) (isort_sorted l2)

/-- Ascending enumeration of a multiset (computable, kernel-reducible). -/
def msort (m : Multiset Int) : List Int :=
  Quot.liftOn m isort (fun _ _ h => isort_eq_of_perm h)

theorem msort_perm (m : Multiset Int) : (msort m : Multiset Int) = m :=
  Quotient.inductionOn m (fun l => Quot.sound (isort_perm l))

/-- Ascending enumeration of a Finset of team ids. -/
def sort_ids (s : Finset Int) : List Int :=
  msort s.val

theorem mem_sort_ids {a : Int} {s : Finset Int} : a ∈ sort_ids s ↔ a ∈ s := by
  have h := msort_perm s.val
  constructor
  · intro ha
    have : a ∈ (msort s.val : Multiset Int) := by simpa using ha
    rw [h] at this
    exact this
  · intro ha
    have : a ∈ (msort s.val : Multiset Int) := by
      rw [h]
      exact ha
    simpa using this

theorem length_sort_ids (s : Finset Int) : (sort_ids s).length = s.card := by
  have h := msort_perm s.val
  have := congrArg Multiset.card h
  simpa using this

theorem sort_ids_singleton (a : Int) : sort_ids {a} = [a] := rfl

/-- PoolType of the tie-break resolver. -/
inductive PoolType where
  | Division
  | Wildcard
  | DraftOrder
  | PlayoffSeeding
deriving DecidableEq, Repr

/-- TeamPool: the transient working state of one tie-break invocation.
team_records is the trial's standings snapshot (a total function; the
source initializes an entry for every season team before any lookup), and
games is the trial's game set. -/
structure TeamPool where
  pool_type : PoolType
  teams : Finset Int
  conference_mapping : List (String × List Int)
  division_mapping : List (String × List Int)
  tied_teams : Finset Int
  winner : Option Int
  ranking : Option (List Int)
  team_records : Int → TeamRecord
  games : List Game

namespace TeamPool

/-- TeamPool::break_by_percent.  The source sorts (team, percent) pairs
descending and keeps the maximal prefix; the resulting set is exactly the
subset of tied teams attaining the maximal percentage, independent of the
HashSet iteration order.  The panic on an invalid percent_type string is
unreachable (callers pass only the three literals); the third branch
covers "conference". -/
def break_by_percent (team_records : Int → TeamRecord) (tied_teams : Finset Int)
    (percent_type : String) : Finset Int :=
  if 1 < tied_teams.card then
    let pct : Int → Nat := fun team_id =>
      if percent_type = "overall" then (team_records team_id).overall_percent
      else if percent_type = "division" then (team_records team_id).division_percent
      else (team_records team_id).conference_percent
    let max_pct := tied_teams.sup pct
    tied_teams.filter (fun team_id => pct team_id = max_pct)
  else tied_teams

/-- records.get_mut(id).0 += 1 on a win count. -/
def bump_win (m : Int → Nat × Nat × Nat) (team_id : Int) : Int → Nat × Nat × Nat :=
  Function.update m team_id ((m team_id).1 + 1, (m team_id).2.1, (m team_id).2.2)

/-- records.get_mut(id).1 += 1 on a loss count. -/
def bump_loss (m : Int → Nat × Nat × Nat) (team_id : Int) : Int → Nat × Nat × Nat :=
  Function.update m team_id ((m team_id).1, (m team_id).2.1 + 1, (m team_id).2.2)

/-- records.get_mut(id).2 += 1 on a tie count. -/
def bump_tie (m : Int → Nat × Nat × Nat) (team_id : Int) : Int → Nat × Nat × Nat :=
  Function.update m team_id ((m team_id).1, (m team_id).2.1, (m team_id).2.2 + 1)

/-- One game of the head-to-head record accumulation: only games whose two
participants are both tied count; a counted game without a result panics
("Game has no result"), modelled by none. -/
def h2h_step (tied_teams : Finset Int) (records : Int → Nat × Nat × Nat) (game : Game) :
    Option (Int → Nat × Nat × Nat) :=
  if game.home_team.team_id ∈ tied_teams ∧ game.away_team.team_id ∈ tied_teams then
    match game.game_result with
    | some GameResult.HomeWin =>
        some (bump_loss (bump_win records game.home_team.team_id) game.away_team.team_id)
    | some GameResult.AwayWin =>
        some (bump_win (bump_loss records game.home_team.team_id) game.away_team.team_id)
    | some GameResult.Tie =>
        some (bump_tie (bump_tie records game.home_team.team_id) game.away_team.team_id)
    | none => none
  else some records

/-- The head-to-head records of the tied teams over the trial's games. -/
def h2h_records (tied_teams : Finset Int) (games : List Game) :
    Option (Int → Nat × Nat × Nat) :=
  games.foldlM (h2h_step tied_teams) (fun _ => (0, 0, 0))

/-- TeamPool::break_by_head_to_head: keep the tied teams attaining the
maximal head-to-head percentage. -/
def break_by_head_to_head (games : List Game) (tied_teams : Finset Int) :
    Option (Finset Int) :=
  if 1 < tied_teams.card then
    match h2h_records tied_teams games with
    | none => none
    | some records =>
      let max_pct := tied_teams.sup
        (fun team_id => Season.calculate_percent_from_tuple (records team_id))
      some (tied_teams.filter
        (fun team_id => Season.calculate_percent_from_tuple (records team_id) = max_pct))
  else some tied_teams

/-- The new_tied_teams value computed (and then discarded) by
TeamPool::break_by_head_to_head_sweep: the last tied team with no
head-to-head loss and no head-to-head tie becomes the sole survivor;
otherwise the teams with no win and no tie (and at least one loss) are
pruned.  The source keeps overwriting the sweeper variable while
iterating the records HashMap; the iteration is embedded in ascending
team-id order. -/
def sweep_new_tied_teams (tied_teams : Finset Int) (records : Int → Nat × Nat × Nat) :
    Finset Int :=
  let sweepers := (sort_ids tied_teams).filter
    (fun t => decide ((records t).2.1 = 0 ∧ (records t).2.2 = 0))
  match sweepers.getLast? with
  | some sweeper => {sweeper}
  | none =>
      tied_teams.filter (fun t =>
        ¬(¬((records t).2.1 = 0 ∧ (records t).2.2 = 0) ∧
          (records t).1 = 0 ∧ (records t).2.2 = 0))

/-- TeamPool::break_by_head_to_head_sweep.  The source computes the
head-to-head records (panicking on a counted game without a result) and
the new_tied_teams set, but never assigns new_tied_teams back to
self.tied_teams, so the tied set is returned unchanged. -/
def break_by_head_to_head_sweep (games : List Game) (tied_teams : Finset Int) :
    Option (Finset Int) :=
  if 1 < tied_teams.card then
    match h2h_records tied_teams games with
    | none => none
    | some records =>
      let _new_tied_teams := sweep_new_tied_teams tied_teams records
      some tied_teams
  else some tied_teams

/-- TeamPool::get_team_division: first division of the mapping whose team
list contains the team. -/
def get_team_division (division_mapping : List (String × List Int)) (team_id : Int) :
    Option String :=
  match division_mapping.find? (fun d => d.2.contains team_id) with
  | some d => some d.1
  | none => none

/-- One game of the opponent-set accumulation of
TeamPool::break_by_common_games.  Note the else-if of the source: when
both participants are tied, only the home team records the away team as
an opponent. -/
def opponent_step (tied_teams : Finset Int) (team_opponent_sets : Int → Finset Int)
    (game : Game) : Int → Finset Int :=
  if game.home_team.team_id ∈ tied_teams then
    Function.update team_opponent_sets game.home_team.team_id
      (insert game.away_team.team_id (team_opponent_sets game.home_team.team_id))
  else if game.away_team.team_id ∈ tied_teams then
    Function.update team_opponent_sets game.away_team.team_id
      (insert game.home_team.team_id (team_opponent_sets game.away_team.team_id))
  else team_opponent_sets

/-- The per-team opponent sets of TeamPool::break_by_common_games (keys
outside the tied set stay empty and are never consulted). -/
def team_opponents (tied_teams : Finset Int) (games : List Game) : Int → Finset Int :=
  games.foldl (opponent_step tied_teams) (fun _ => ∅)

/-- The common-opponents intersection: the first tied team's opponent set
intersected with every other tied team's set (iterating the records map;
unwrap() panics on an empty tied set, modelled by none).  The fold order
is irrelevant to the resulting set. -/
def common_opponents (tied_teams : Finset Int) (games : List Game) : Option (Finset Int) :=
  match sort_ids tied_teams with
  | [] => none
  | t :: ts =>
      some (ts.foldl (fun set1 u => set1 ∩ team_opponents tied_teams games u)
        (team_opponents tied_teams games t))

/-- One game of the common-games tally: a tied home team against a common
opponent counts from the home perspective, else a tied away team against
a common home opponent counts from the away perspective; a counted game
without a result panics, modelled by none. -/
def common_games_step (tied_teams common : Finset Int) (st : Nat × (Int → Nat × Nat × Nat))
    (game : Game) : Option (Nat × (Int → Nat × Nat × Nat)) :=
  if game.home_team.team_id ∈ tied_teams ∧ game.away_team.team_id ∈ common then
    match game.game_result with
    | some GameResult.HomeWin => some (st.1 + 1, bump_win st.2 game.home_team.team_id)
    | some GameResult.AwayWin => some (st.1 + 1, bump_loss st.2 game.home_team.team_id)
    | some GameResult.Tie => some (st.1 + 1, bump_tie st.2 game.home_team.team_id)
    | none => none
  else if game.home_team.team_id ∈ common ∧ game.away_team.team_id ∈ tied_teams then
    match game.game_result with
    | some GameResult.HomeWin => some (st.1 + 1, bump_loss st.2 game.away_team.team_id)
    | some GameResult.AwayWin => some (st.1 + 1, bump_win st.2 game.away_team.team_id)
    | some GameResult.Tie => some (st.1 + 1, bump_tie st.2 game.away_team.team_id)
    | none => none
  else some st

/-- TeamPool::break_by_common_games: if the tied teams played more than
min_games total games against common opponents, keep the teams attaining
the maximal common-games percentage, else leave the tie unchanged. -/
def break_by_common_games (games : List Game) (tied_teams : Finset Int) (min_games : Nat) :
    Option (Finset Int) :=
  if 1 < tied_teams.card then
    match common_opponents tied_teams games with
    | none => none
    | some common =>
      match games.foldlM (common_games_step tied_teams common) (0, fun _ => (0, 0, 0)) with
      | none => none
      | some st =>
        if min_games < st.1 then
          let max_pct := tied_teams.sup
            (fun team_id => Season.calculate_percent_from_tuple (st.2 team_id))
          some (tied_teams.filter
            (fun team_id => Season.calculate_percent_from_tuple (st.2 team_id) = max_pct))
        else some tied_teams
  else some tied_teams

/-- TeamPool::break_by_random: index a Vec of the tied teams with
gen_range(0..len); gen_range panics on the empty range (none).  The Vec
order is embedded ascending; together with the universally quantified
random stream this covers every possible pick. -/
def break_by_random (tied_teams : Finset Int) (rand : Nat → Nat) (k : Nat) :
    Option (Finset Int × Nat) :=
  let tied_teams_vec := sort_ids tied_teams
  if tied_teams_vec.length = 0 then none
  else
    let index := rand k % tied_teams_vec.length
    let winner := tied_teams_vec.getD index 0
    some ({winner}, k + 1)

/-- TeamPool::pick_two_random: one pick, retain the rest, second pick. -/
def pick_two_random (tied_teams : Finset Int) (rand : Nat → Nat) (k : Nat) :
    Option (Finset Int × Nat) :=
  let tied_teams_vec := sort_ids tied_teams
  if tied_teams_vec.length = 0 then none
  else
    let winner1 := tied_teams_vec.getD (rand k % tied_teams_vec.length) 0
    let vec2 := tied_teams_vec.filter (fun team_id => decide (team_id ≠ winner1))
    if vec2.length = 0 then none
    else
      let winner2 := vec2.getD (rand (k + 1) % vec2.length) 0
      some ({winner1, winner2}, k + 2)

/-- TeamPool::evaluate_division: overall percent, division percent,
head-to-head, common games (min_games = 0), conference percent, random
pick, then winner := the single remaining team (iter().next().unwrap(),
total here because break_by_random leaves a singleton). -/
def evaluate_division (team_records : Int → TeamRecord) (games : List Game)
    (tied_teams : Finset Int) (rand : Nat → Nat) (k : Nat) :
    Option (Int × Finset Int × Nat) :=
  let t1 := break_by_percent team_records tied_teams "overall"
  let t2 := break_by_percent team_records t1 "division"
  match break_by_head_to_head games t2 with
  | none => none
  | some t3 =>
    match break_by_common_games games t3 0 with
    | none => none
    | some t4 =>
      let t5 := break_by_percent team_records t4 "conference"
      match break_by_random t5 rand k with
      | none => none
      | some (t6, k6) =>
        match (sort_ids t6).head? with
        | none => none
        | some w => some (w, t6, k6)

/-- One division group of TeamPool::break_wildcard_division_ties: a group
with several tied teams is resolved by a cloned Division-mode pool over
the group (pool_type := Division; evaluate dispatches to
evaluate_division), a singleton group passes its team through, and an
empty group panics ("Division has no teams associated"), modelled by
none (unreachable: every processed division name comes from a tied
team). -/
def division_winner_step (team_records : Int → TeamRecord) (games : List Game)
    (division_mapping : List (String × List Int)) (tied_teams : Finset Int)
    (rand : Nat → Nat) (acc : Finset Int × Nat) (division : String) :
    Option (Finset Int × Nat) :=
  let division_teams := tied_teams.filter
    (fun t => get_team_division division_mapping t = some division)
  if 1 < division_teams.card then
    match evaluate_division team_records games division_teams rand acc.2 with
    | none => none
    | some (w, _, k2) => some (insert w acc.1, k2)
  else if division_teams.card = 1 then some (acc.1 ∪ division_teams, acc.2)
  else none

/-- TeamPool::break_wildcard_division_ties: group the tied teams by
division (get_team_division(..).unwrap() panics for a team in no
division, modelled by none through mapM), resolve each multi-team group
with the Division-mode resolver, and replace the tied set by the set of
per-division winners.  Groups are processed in first-appearance order of
the ascending tied-team traversal. -/
def break_wildcard_division_ties (team_records : Int → TeamRecord) (games : List Game)
    (division_mapping : List (String × List Int)) (tied_teams : Finset Int)
    (rand : Nat → Nat) (k : Nat) : Option (Finset Int × Nat) :=
  if 1 < tied_teams.card then
    match (sort_ids tied_teams).mapM (get_team_division division_mapping) with
    | none => none
    | some division_names =>
        division_names.dedup.foldlM
          (division_winner_step team_records games division_mapping tied_teams rand)
          ((∅ : Finset Int), k)
  else some (tied_teams, k)

/-- One iteration of TeamPool::evaluate_wildcard: overall percent; then,
each guarded by more than two teams still tied: embedded division-tie
resolution, head-to-head sweep, conference percent, common games
(min_games = 4), random halving to two; then unconditionally head-to-head,
conference percent, common games (min_games = 4), random pick; the single
survivor is the iteration's top team. -/
def evaluate_wildcard_iteration (team_records : Int → TeamRecord) (games : List Game)
    (division_mapping : List (String × List Int)) (tied_teams : Finset Int)
    (rand : Nat → Nat) (k : Nat) : Option (Int × Nat) :=
  let t1 := break_by_percent team_records tied_teams "overall"
  match (if 2 < t1.card then
          break_wildcard_division_ties team_records games division_mapping t1 rand k
         else some (t1, k)) with
  | none => none
  | some (t2, k2) =>
    match (if 2 < t2.card then break_by_head_to_head_sweep games t2 else some t2) with
    | none => none
    | some t3 =>
      let t4 := if 2 < t3.card then break_by_percent team_records t3 "conference" else t3
      match (if 2 < t4.card then break_by_common_games games t4 4 else some t4) with
      | none => none
      | some t5 =>
        match (if 2 < t5.card then pick_two_random t5 rand k2 else some (t5, k2)) with
        | none => none
        | some (t6, k6) =>
          match break_by_head_to_head games t6 with
          | none => none
          | some t7 =>
            let t8 := break_by_percent team_records t7 "conference"
            match break_by_common_games games t8 4 with
            | none => none
            | some t9 =>
              match break_by_random t9 rand k6 with
              | none => none
              | some (t10, k10) =>
                match (sort_ids t10).head? with
                | none => none
                | some top_team => some (top_team, k10)

/-- The for-loop of TeamPool::evaluate_wildcard: each iteration appends
its top team to the ranking and resets the tied set to the pool's teams
minus the ranking. -/
def evaluate_wildcard_loop (team_records : Int → TeamRecord) (games : List Game)
    (division_mapping : List (String × List Int)) (teams : Finset Int)
    (rand : Nat → Nat) : Nat → List Int → Finset Int → Nat →
    Option (List Int × Finset Int × Nat)
  | 0, ranking, tied_teams, k => some (ranking, tied_teams, k)
  | Nat.succ n, ranking, tied_teams, k =>
    match evaluate_wildcard_iteration team_records games division_mapping tied_teams
        rand k with
    | none => none
    | some (top_team, k2) =>
      let ranking2 := ranking ++ [top_team]
      let tied2 := teams.filter (fun t => t ∉ ranking2)
      evaluate_wildcard_loop team_records games division_mapping teams rand n
        ranking2 tied2 k2

/-- TeamPool::evaluate_wildcard: ranking := [], then three iterations. -/
def evaluate_wildcard (team_records : Int → TeamRecord) (games : List Game)
    (division_mapping : List (String × List Int)) (teams : Finset Int)
    (rand : Nat → Nat) (k : Nat) : Option (List Int × Finset Int × Nat) :=
  evaluate_wildcard_loop team_records games division_mapping teams rand 3 [] teams k

/-- TeamPool::evaluate: dispatch on the pool type; DraftOrder and
PlayoffSeeding are todo!() in the source (an unconditional panic),
modelled by none. -/
def evaluate (p : TeamPool) (rand : Nat → Nat) (k : Nat) : Option (TeamPool × Nat) :=
  match p.pool_type with
  | PoolType.Division =>
      match evaluate_division p.team_records p.games p.tied_teams rand k with
      | none => none
      | some (w, t6, k6) => some ({ p with tied_teams := t6, winner := some w }, k6)
  | PoolType.Wildcard =>
      match evaluate_wildcard p.team_records p.games p.division_mapping p.teams rand k with
      | none => none
      | some (r, tied2, k2) => some ({ p with ranking := some r, tied_teams := tied2 }, k2)
  | PoolType.DraftOrder => none
  | PoolType.PlayoffSeeding => none

end TeamPool

open TeamPool in
/-- A max-percentage filter over a nonempty set is nonempty. -/
theorem filter_sup_nonempty (s : Finset Int) (f : Int → Nat) (h : s.Nonempty) :
    (s.filter (fun t => f t = s.sup f)).Nonempty := by
  obtain ⟨b, hb, hsup⟩ := Finset.exists_mem_eq_sup s h f
  exact ⟨b, Finset.mem_filter.mpr ⟨hb, hsup.symm⟩⟩

/-- break_by_percent refines the tied set. -/
theorem break_by_percent_subset (tr : Int → TeamRecord) (tied : Finset Int) (pt : String) :
    TeamPool.break_by_percent tr tied pt ⊆ tied := by
  simp only [TeamPool.break_by_percent]
  split_ifs <;> first
  | exact Finset.filter_subset _ _
  | exact Finset.Subset.refl tied

/-- break_by_percent preserves nonemptiness. -/
theorem break_by_percent_nonempty (tr : Int → TeamRecord) (tied : Finset Int) (pt : String)
    (h : tied.Nonempty) : (TeamPool.break_by_percent tr tied pt).Nonempty := by
  simp only [TeamPool.break_by_percent]
  split_ifs <;> first
  | exact filter_sup_nonempty tied _ h
  | exact h

/-- A head-to-head accumulation step always succeeds on a decided game. -/
theorem h2h_step_isSome (tied : Finset Int) (g : Game) (hres : g.game_result ≠ none)
    (recs : Int → Nat × Nat × Nat) : (TeamPool.h2h_step tied recs g).isSome := by
  simp only [TeamPool.h2h_step]
  split_ifs
  · cases hr : g.game_result with
    | none => exact absurd hr hres
    | some r => cases r <;> simp
  · simp

/-- The head-to-head records exist whenever every game is decided. -/
theorem h2h_records_isSome (tied : Finset Int) (games : List Game)
    (hdec : ∀ g ∈ games, g.game_result ≠ none) :
    (TeamPool.h2h_records tied games).isSome :=
  foldlM_option_isSome _ games _
    (fun g hg recs => h2h_step_isSome tied g (hdec g hg) recs)

/-- break_by_head_to_head succeeds on decided games, refines the tied set
and preserves nonemptiness. -/
theorem break_by_head_to_head_spec (games : List Game) (tied : Finset Int)
    (hdec : ∀ g ∈ games, g.game_result ≠ none) :
    ∃ s', TeamPool.break_by_head_to_head games tied = some s' ∧ s' ⊆ tied ∧
      (tied.Nonempty → s'.Nonempty) := by
  by_cases h : 1 < tied.card
  · obtain ⟨recs, hrecs⟩ := Option.isSome_iff_exists.mp (h2h_records_isSome tied games hdec)
    exact ⟨tied.filter (fun team_id =>
        Season.calculate_percent_from_tuple (recs team_id) =
          tied.sup (fun team_id => Season.calculate_percent_from_tuple (recs team_id))),
      by simp only [TeamPool.break_by_head_to_head, if_pos h, hrecs],
      Finset.filter_subset _ _,
      fun hne => filter_sup_nonempty tied _ hne⟩
  · exact ⟨tied, by simp only [TeamPool.break_by_head_to_head, if_neg h],
      Finset.Subset.refl tied, id⟩

/-- break_by_head_to_head_sweep returns the tied set unchanged on decided
games: the computed new_tied_teams value is dropped by the source. -/
theorem break_by_head_to_head_sweep_id (games : List Game) (tied : Finset Int)
    (hdec : ∀ g ∈ games, g.game_result ≠ none) :
    TeamPool.break_by_head_to_head_sweep games tied = some tied := by
  by_cases h : 1 < tied.card
  · obtain ⟨recs, hrecs⟩ := Option.isSome_iff_exists.mp (h2h_records_isSome tied games hdec)
    simp only [TeamPool.break_by_head_to_head_sweep, if_pos h, hrecs]
  · simp only [TeamPool.break_by_head_to_head_sweep, if_neg h]

/-- The common-opponents intersection exists for a nonempty tied set. -/
theorem common_opponents_isSome (tied : Finset Int) (games : List Game)
    (hne : tied.Nonempty) : ∃ c, TeamPool.common_opponents tied games = some c := by
  cases hs : sort_ids tied with
  | nil =>
      exfalso
      have hlen := length_sort_ids tied
      rw [hs] at hlen
      simp only [List.length_nil] at hlen
      have := Finset.card_pos.mpr hne
      omega
  | cons t ts =>
      exact ⟨ts.foldl (fun set1 u => set1 ∩ TeamPool.team_opponents tied games u)
          (TeamPool.team_opponents tied games t),
        by simp only [TeamPool.common_opponents, hs]⟩

/-- A common-games tally step always succeeds on a decided game. -/
theorem common_games_step_isSome (tied common : Finset Int) (g : Game)
    (hres : g.game_result ≠ none) (st : Nat × (Int → Nat × Nat × Nat)) :
    (TeamPool.common_games_step tied common st g).isSome := by
  simp only [TeamPool.common_games_step]
  split_ifs
  · cases hr : g.game_result with
    | none => exact absurd hr hres
    | some r => cases r <;> simp
  · cases hr : g.game_result with
    | none => exact absurd hr hres
    | some r => cases r <;> simp
  · simp

/-- break_by_common_games succeeds on decided games, refines the tied set
and preserves nonemptiness. -/
theorem break_by_common_games_spec (games : List Game) (tied : Finset Int) (mg : Nat)
    (hdec : ∀ g ∈ games, g.game_result ≠ none) :
    ∃ s', TeamPool.break_by_common_games games tied mg = some s' ∧ s' ⊆ tied ∧
      (tied.Nonempty → s'.Nonempty) := by
  by_cases h : 1 < tied.card
  · have hne : tied.Nonempty := Finset.card_pos.mp (by omega)
    obtain ⟨c, hc⟩ := common_opponents_isSome tied games hne
    obtain ⟨st, hst⟩ := Option.isSome_iff_exists.mp
      (foldlM_option_isSome _ games ((0 : Nat), fun _ => ((0 : Nat), (0 : Nat), (0 : Nat)))
        (fun g hg st => common_games_step_isSome tied c g (hdec g hg) st))
    by_cases hmg : mg < st.1
    · exact ⟨tied.filter (fun team_id =>
          Season.calculate_percent_from_tuple (st.2 team_id) =
            tied.sup (fun team_id => Season.calculate_percent_from_tuple (st.2 team_id))),
        by simp only [TeamPool.break_by_common_games, if_pos h, hc, hst, if_pos hmg],
        Finset.filter_subset _ _,
        fun hne' => filter_sup_nonempty tied _ hne'⟩
    · exact ⟨tied, by simp only [TeamPool.break_by_common_games, if_pos h, hc, hst, if_neg hmg],
        Finset.Subset.refl tied, id⟩
  · exact ⟨tied, by simp only [TeamPool.break_by_common_games, if_neg h],
      Finset.Subset.refl tied, id⟩

/-- getD at an in-range index is a list member. -/
theorem list_getD_mem : ∀ (l : List Int) (n : Nat), n < l.length → ∀ d, l.getD n d ∈ l := by
  intro l
  induction l with
  | nil => intro n h d; simp at h
  | cons a t ih =>
      intro n h d
      cases n with
      | zero => simp
      | succ n' =>
          simp only [List.getD_cons_succ]
          exact List.mem_cons_of_mem a (ih n' (by simpa using h) d)

/-- break_by_random on a nonempty tied set returns a singleton member of
the tied set (for any random stream). -/
theorem break_by_random_spec (tied : Finset Int) (hne : tied.Nonempty)
    (rand : Nat → Nat) (k : Nat) :
    ∃ w, TeamPool.break_by_random tied rand k = some ({w}, k + 1) ∧ w ∈ tied := by
  have hlen : (sort_ids tied).length = tied.card := length_sort_ids tied
  have hpos : (sort_ids tied).length ≠ 0 := by
    rw [hlen]
    have := Finset.card_pos.mpr hne
    omega
  refine ⟨(sort_ids tied).getD (rand k % (sort_ids tied).length) 0, ?_, ?_⟩
  · simp only [TeamPool.break_by_random, if_neg hpos]
  · have hidx : rand k % (sort_ids tied).length < (sort_ids tied).length :=
      Nat.mod_lt _ (by omega)
    exact mem_sort_ids.mp (list_getD_mem _ _ hidx 0)

/-- pick_two_random on at least two tied teams returns two members of the
tied set (for any random stream). -/
theorem pick_two_random_spec (tied : Finset Int) (hcard : 2 ≤ tied.card)
    (rand : Nat → Nat) (k : Nat) :
    ∃ s', TeamPool.pick_two_random tied rand k = some (s', k + 2) ∧ s' ⊆ tied ∧
      s'.Nonempty := by
  have hlen : (sort_ids tied).length = tied.card := length_sort_ids tied
  have hpos : (sort_ids tied).length ≠ 0 := by omega
  set vec := sort_ids tied with hvec
  set w1 := vec.getD (rand k % vec.length) 0 with hw1
  have hw1mem : w1 ∈ tied := by
    have hidx : rand k % vec.length < vec.length := Nat.mod_lt _ (by omega)
    exact mem_sort_ids.mp (list_getD_mem _ _ hidx 0)
  set vec2 := vec.filter (fun team_id => decide (team_id ≠ w1)) with hvec2
  have hpos2 : vec2.length ≠ 0 := by
    intro hz
    have hnil : vec2 = [] := List.length_eq_zero.mp hz
    have hall : ∀ a ∈ vec, a = w1 := by
      intro a ha
      by_contra hne
      have : a ∈ vec2 := by
        rw [hvec2]
        exact List.mem_filter.mpr ⟨ha, by simpa using hne⟩
      rw [hnil] at this
      simp at this
    obtain ⟨a, ha, b, hb, hab⟩ := (Finset.one_lt_card (s := tied)).mp (by omega)
    have ha' := hall a (mem_sort_ids.mpr ha)
    have hb' := hall b (mem_sort_ids.mpr hb)
    exact hab (ha'.trans hb'.symm)
  set w2 := vec2.getD (rand (k + 1) % vec2.length) 0 with hw2
  have hw2mem : w2 ∈ tied := by
    have hidx : rand (k + 1) % vec2.length < vec2.length := Nat.mod_lt _ (by omega)
    have hmem2 : w2 ∈ vec2 := list_getD_mem _ _ hidx 0
    have hmemv : w2 ∈ vec := (List.mem_filter.mp hmem2).1
    exact mem_sort_ids.mp hmemv
  refine ⟨{w1, w2}, ?_, ?_, ?_⟩
  · simp only [TeamPool.pick_two_random, if_neg hpos, if_neg hpos2]
  · intro x hx
    rcases Finset.mem_insert.mp hx with rfl | hx'
    · exact hw1mem
    · rw [Finset.mem_singleton.mp hx']
      exact hw2mem
  · exact ⟨w1, Finset.mem_insert_self w1 {w2}⟩

/-- evaluate_division terminates with a singleton winner drawn from the
tied set whenever the tied set is nonempty and the games are decided, for
every random stream. -/
theorem evaluate_division_spec (tr : Int → TeamRecord) (games : List Game)
    (tied : Finset Int) (hne : tied.Nonempty)
    (hdec : ∀ g ∈ games, g.game_result ≠ none) (rand : Nat → Nat) (k : Nat) :
    ∃ w k', TeamPool.evaluate_division tr games tied rand k = some (w, {w}, k') ∧
      w ∈ tied := by
  have sub1 := break_by_percent_subset tr tied "overall"
  have ne1 := break_by_percent_nonempty tr tied "overall" hne
  set t1 := TeamPool.break_by_percent tr tied "overall" with ht1
  have sub2 := break_by_percent_subset tr t1 "division"
  have ne2 := break_by_percent_nonempty tr t1 "division" ne1
  set t2 := TeamPool.break_by_percent tr t1 "division" with ht2
  obtain ⟨t3, h3, sub3, ne3f⟩ := break_by_head_to_head_spec games t2 hdec
  have ne3 := ne3f ne2
  obtain ⟨t4, h4, sub4, ne4f⟩ := break_by_common_games_spec games t3 0 hdec
  have ne4 := ne4f ne3
  have sub5 := break_by_percent_subset tr t4 "conference"
  have ne5 := break_by_percent_nonempty tr t4 "conference" ne4
  set t5 := TeamPool.break_by_percent tr t4 "conference" with ht5
  obtain ⟨w, hw, hwmem⟩ := break_by_random_spec t5 ne5 rand k
  refine ⟨w, k + 1, ?_, ?_⟩
  · simp only [TeamPool.evaluate_division, ← ht1, ← ht2, h3, ← ht5, h4, hw,
      sort_ids_singleton, List.head?]
  · exact sub1 (sub2 (sub3 (sub4 (sub5 hwmem))))

/-- C3: for every nonempty tied set over decided games the division
resolver returns exactly one winner, a member of the input set, for every
outcome of the random draw. -/
theorem claim3_division_winner (tr : Int → TeamRecord) (games : List Game)
    (tied : Finset Int) (rand : Nat → Nat) (k : Nat) (hne : tied.Nonempty)
    (hdec : ∀ g ∈ games, g.game_result ≠ none) :
    ∃ w k', TeamPool.evaluate_division tr games tied rand k = some (w, {w}, k') ∧
      w ∈ tied :=
  evaluate_division_spec tr games tied hne hdec rand k

/-- Witness for C3 at a concrete two-team pool with no games. -/
theorem claim3_witness :
    ∃ w k', TeamPool.evaluate_division (fun _ => TeamRecord.new) [] {5, 7}
        (fun _ => 0) 0 = some (w, {w}, k') ∧ w ∈ ({5, 7} : Finset Int) :=
  claim3_division_winner (fun _ => TeamRecord.new) [] {5, 7} (fun _ => 0) 0
    ⟨5, by decide⟩ (by intro g hg; simp at hg)

/-- An Option-valued mapM over everywhere-defined elements returns a list
of the same length whose members all come from applying the function. -/
theorem mapM_option_spec {α β : Type} (f : α → Option β) :
    ∀ l : List α, (∀ a ∈ l, (f a).isSome) →
      ∃ l', l.mapM f = some l' ∧ l'.length = l.length ∧
        ∀ b ∈ l', ∃ a ∈ l, f a = some b := by
  intro l
  induction l with
  | nil =>
      intro _
      exact ⟨[], rfl, rfl, by simp⟩
  | cons a t ih =>
      intro h
      obtain ⟨b, hb⟩ := Option.isSome_iff_exists.mp (h a (List.mem_cons_self a t))
      obtain ⟨l', hl', hlen, hmem⟩ := ih (fun x hx => h x (List.mem_cons_of_mem a hx))
      refine ⟨b :: l', ?_, by simp [hlen], ?_⟩
      · rw [List.mapM_cons, hb, hl']
        rfl
      · intro c hc
        rcases List.mem_cons.mp hc with rfl | hc'
        · exact ⟨a, List.mem_cons_self a t, hb⟩
        · obtain ⟨x, hx, hfx⟩ := hmem c hc'
          exact ⟨x, List.mem_cons_of_mem a hx, hfx⟩

/-- The division-winner fold of break_wildcard_division_ties: starting
from an accumulator inside the tied set, and given that every processed
division name is the division of some tied team, the fold succeeds, stays
inside the tied set, and is nonempty once the accumulator is nonempty or
at least one name is processed. -/
theorem division_winner_fold_spec (tr : Int → TeamRecord) (games : List Game)
    (dm : List (String × List Int)) (tied : Finset Int) (rand : Nat → Nat)
    (hdec : ∀ g ∈ games, g.game_result ≠ none) :
    ∀ (names : List String) (acc : Finset Int × Nat),
      (∀ dname ∈ names, ∃ t ∈ tied, TeamPool.get_team_division dm t = some dname) →
      acc.1 ⊆ tied →
      ∃ res : Finset Int × Nat,
        names.foldlM (TeamPool.division_winner_step tr games dm tied rand) acc =
          some res ∧
        res.1 ⊆ tied ∧ ((acc.1.Nonempty ∨ names ≠ []) → res.1.Nonempty) := by
  intro names
  induction names with
  | nil =>
      intro acc _ hsub
      refine ⟨acc, by simp, hsub, ?_⟩
      rintro (hne | hne)
      · exact hne
      · exact absurd rfl hne
  | cons dname rest ih =>
      intro acc hnames hsub
      obtain ⟨t0, ht0, hdiv0⟩ := hnames dname (List.mem_cons_self dname rest)
      set group := tied.filter
        (fun t => TeamPool.get_team_division dm t = some dname) with hgroup
      have hgne : group.Nonempty := ⟨t0, Finset.mem_filter.mpr ⟨ht0, hdiv0⟩⟩
      have hgsub : group ⊆ tied := Finset.filter_subset _ _
      by_cases hg : 1 < group.card
      · obtain ⟨w, k2, heval, hwmem⟩ :=
          evaluate_division_spec tr games group hgne hdec rand acc.2
        have hstep : TeamPool.division_winner_step tr games dm tied rand acc dname =
            some (insert w acc.1, k2) := by
          simp only [TeamPool.division_winner_step, ← hgroup, if_pos hg, heval]
        obtain ⟨res, hres, hressub, hresne⟩ :=
          ih (insert w acc.1, k2)
            (fun d hd => hnames d (List.mem_cons_of_mem dname hd))
            (Finset.insert_subset_iff.mpr ⟨hgsub hwmem, hsub⟩)
        refine ⟨res, ?_, hressub, fun _ => hresne (Or.inl (Finset.insert_nonempty w acc.1))⟩
        rw [List.foldlM_cons, hstep]
        simpa using hres
      · have hcard : group.card = 1 := by
          have := Finset.card_pos.mpr hgne
          omega
        have hstep : TeamPool.division_winner_step tr games dm tied rand acc dname =
            some (acc.1 ∪ group, acc.2) := by
          simp only [TeamPool.division_winner_step, ← hgroup, if_neg hg, if_pos hcard]
        obtain ⟨res, hres, hressub, hresne⟩ :=
          ih (acc.1 ∪ group, acc.2)
            (fun d hd => hnames d (List.mem_cons_of_mem dname hd))
            (Finset.union_subset hsub hgsub)
        refine ⟨res, ?_, hressub,
          fun _ => hresne (Or.inl (hgne.mono Finset.subset_union_right))⟩
        rw [List.foldlM_cons, hstep]
        simpa using hres

/-- break_wildcard_division_ties succeeds whenever the games are decided
and every tied team belongs to a division; the resulting tied set is made
of tied teams and stays nonempty. -/
theorem break_wildcard_division_ties_spec (tr : Int → TeamRecord) (games : List Game)
    (dm : List (String × List Int)) (tied : Finset Int) (rand : Nat → Nat) (k : Nat)
    (hdec : ∀ g ∈ games, g.game_result ≠ none)
    (hcov : ∀ t ∈ tied, (TeamPool.get_team_division dm t).isSome) :
    ∃ s' k', TeamPool.break_wildcard_division_ties tr games dm tied rand k =
        some (s', k') ∧ s' ⊆ tied ∧ (tied.Nonempty → s'.Nonempty) := by
  by_cases h : 1 < tied.card
  · obtain ⟨dn, hdn, hlen, hmem⟩ := mapM_option_spec (TeamPool.get_team_division dm)
      (sort_ids tied)
      (fun t ht => hcov t (mem_sort_ids.mp ht))
    have hnames : ∀ dname ∈ dn.dedup, ∃ t ∈ tied,
        TeamPool.get_team_division dm t = some dname := by
      intro dname hd
      obtain ⟨t, ht, hft⟩ := hmem dname (List.mem_dedup.mp hd)
      exact ⟨t, mem_sort_ids.mp ht, hft⟩
    obtain ⟨res, hres, hressub, hresne⟩ :=
      division_winner_fold_spec tr games dm tied rand hdec dn.dedup (∅, k) hnames
        (Finset.empty_subset tied)
    have hdn_ne : dn ≠ [] := by
      intro hnil
      rw [hnil] at hlen
      have hslen := length_sort_ids tied
      simp only [List.length_nil] at hlen
      omega
    refine ⟨res.1, res.2, ?_, hressub, ?_⟩
    · simp only [TeamPool.break_wildcard_division_ties, if_pos h, hdn]
      rw [hres]
    · intro _
      exact hresne (Or.inr (by simpa using hdn_ne))
  · exact ⟨tied, k, by simp only [TeamPool.break_wildcard_division_ties, if_neg h],
      Finset.Subset.refl tied, id⟩

/-- One wildcard iteration terminates with a top team drawn from the tied
set, whenever the games are decided, every tied team has a division, and
the tied set is nonempty — for every random stream. -/
theorem evaluate_wildcard_iteration_spec (tr : Int → TeamRecord) (games : List Game)
    (dm : List (String × List Int)) (tied : Finset Int) (rand : Nat → Nat) (k : Nat)
    (hdec : ∀ g ∈ games, g.game_result ≠ none)
    (hcov : ∀ t ∈ tied, (TeamPool.get_team_division dm t).isSome)
    (hne : tied.Nonempty) :
    ∃ top k', TeamPool.evaluate_wildcard_iteration tr games dm tied rand k =
        some (top, k') ∧ top ∈ tied := by
  have sub1 := break_by_percent_subset tr tied "overall"
  have ne1 := break_by_percent_nonempty tr tied "overall" hne
  set t1 := TeamPool.break_by_percent tr tied "overall" with ht1
  have step2 : ∃ t2 k2,
      (if 2 < t1.card then
        TeamPool.break_wildcard_division_ties tr games dm t1 rand k
       else some (t1, k)) = some (t2, k2) ∧ t2 ⊆ t1 ∧ t2.Nonempty := by
    by_cases hc : 2 < t1.card
    · obtain ⟨s', k', heq, hsub, hnef⟩ := break_wildcard_division_ties_spec tr games dm
        t1 rand k hdec (fun t ht => hcov t (sub1 ht))
      exact ⟨s', k', by rw [if_pos hc]; exact heq, hsub, hnef ne1⟩
    · exact ⟨t1, k, by rw [if_neg hc], Finset.Subset.refl t1, ne1⟩
  obtain ⟨t2, k2, h2, sub2, ne2⟩ := step2
  have h3 : (if 2 < t2.card then TeamPool.break_by_head_to_head_sweep games t2
      else some t2) = some t2 := by
    split_ifs with hc
    · exact break_by_head_to_head_sweep_id games t2 hdec
    · rfl
  have sub4 : (if 2 < t2.card then TeamPool.break_by_percent tr t2 "conference"
      else t2) ⊆ t2 := by
    split_ifs with hc
    · exact break_by_percent_subset tr t2 "conference"
    · exact Finset.Subset.refl t2
  have ne4 : (if 2 < t2.card then TeamPool.break_by_percent tr t2 "conference"
      else t2).Nonempty := by
    split_ifs with hc
    · exact break_by_percent_nonempty tr t2 "conference" ne2
    · exact ne2
  set t4 := if 2 < t2.card then TeamPool.break_by_percent tr t2 "conference" else t2
    with ht4
  have step5 : ∃ t5, (if 2 < t4.card then TeamPool.break_by_common_games games t4 4
      else some t4) = some t5 ∧ t5 ⊆ t4 ∧ t5.Nonempty := by
    by_cases hc : 2 < t4.card
    · obtain ⟨s', heq, hsub, hnef⟩ := break_by_common_games_spec games t4 4 hdec
      exact ⟨s', by rw [if_pos hc]; exact heq, hsub, hnef ne4⟩
    · exact ⟨t4, by rw [if_neg hc], Finset.Subset.refl t4, ne4⟩
  obtain ⟨t5, h5, sub5, ne5⟩ := step5
  have step6 : ∃ t6 k6, (if 2 < t5.card then TeamPool.pick_two_random t5 rand k2
      else some (t5, k2)) = some (t6, k6) ∧ t6 ⊆ t5 ∧ t6.Nonempty := by
    by_cases hc : 2 < t5.card
    · obtain ⟨s', heq, hsub, hne'⟩ := pick_two_random_spec t5 (by omega) rand k2
      exact ⟨s', k2 + 2, by rw [if_pos hc]; exact heq, hsub, hne'⟩
    · exact ⟨t5, k2, by rw [if_neg hc], Finset.Subset.refl t5, ne5⟩
  obtain ⟨t6, k6, h6, sub6, ne6⟩ := step6
  obtain ⟨t7, h7, sub7, ne7f⟩ := break_by_head_to_head_spec games t6 hdec
  have ne7 := ne7f ne6
  have sub8 := break_by_percent_subset tr t7 "conference"
  have ne8 := break_by_percent_nonempty tr t7 "conference" ne7
  set t8 := TeamPool.break_by_percent tr t7 "conference" with ht8
  obtain ⟨t9, h9, sub9, ne9f⟩ := break_by_common_games_spec games t8 4 hdec
  have ne9 := ne9f ne8
  obtain ⟨w, h10, hwmem⟩ := break_by_random_spec t9 ne9 rand k6
  refine ⟨w, k6 + 1, ?_, ?_⟩
  · simp only [TeamPool.evaluate_wildcard_iteration, ← ht1, h2, h3, ← ht4, h5, h6, h7,
      ← ht8, h9, h10, sort_ids_singleton, List.head?]
  · exact sub1 (sub2 (sub4 (sub5 (sub6 (sub7 (sub8 (sub9 hwmem)))))))

/-- Cardinality of the pool minus the already-ranked teams. -/
theorem filter_not_mem_card (teams : Finset Int) (ranking : List Int)
    (hnd : ranking.Nodup) (hsub : ∀ t ∈ ranking, t ∈ teams) :
    (teams.filter (fun t => t ∉ ranking)).card = teams.card - ranking.length := by
  have h1 : teams.filter (fun t => t ∈ ranking) = ranking.toFinset := by
    ext x
    simp only [Finset.mem_filter, List.mem_toFinset]
    exact ⟨fun h => h.2, fun h => ⟨hsub x h, h⟩⟩
  have h2 : (teams.filter (fun t => t ∈ ranking)).card = ranking.length := by
    rw [h1, List.toFinset_card_of_nodup hnd]
  have h3 := Finset.filter_card_add_filter_neg_card_eq_card
    (s := teams) (p := fun t => t ∈ ranking)
  omega

/-- The wildcard loop: starting from a duplicate-free ranking inside the
pool with enough teams left, every remaining iteration succeeds and the
final ranking extends the given one by n distinct pool members. -/
theorem evaluate_wildcard_loop_spec (tr : Int → TeamRecord) (games : List Game)
    (dm : List (String × List Int)) (teams : Finset Int) (rand : Nat → Nat)
    (hdec : ∀ g ∈ games, g.game_result ≠ none)
    (hcov : ∀ t ∈ teams, (TeamPool.get_team_division dm t).isSome) :
    ∀ (n : Nat) (ranking : List Int) (k : Nat),
      ranking.Nodup → (∀ t ∈ ranking, t ∈ teams) →
      ranking.length + n ≤ teams.card →
      ∃ r' tied' k', TeamPool.evaluate_wildcard_loop tr games dm teams rand n ranking
          (teams.filter (fun t => t ∉ ranking)) k = some (r', tied', k') ∧
        r'.length = ranking.length + n ∧ r'.Nodup ∧ ∀ t ∈ r', t ∈ teams := by
  intro n
  induction n with
  | zero =>
      intro ranking k hnd hsub _
      exact ⟨ranking, teams.filter (fun t => t ∉ ranking), k, rfl, by omega, hnd, hsub⟩
  | succ n ih =>
      intro ranking k hnd hsub hle
      have hcard : (teams.filter (fun t => t ∉ ranking)).card =
          teams.card - ranking.length := filter_not_mem_card teams ranking hnd hsub
      have htne : (teams.filter (fun t => t ∉ ranking)).Nonempty :=
        Finset.card_pos.mp (by omega)
      have hcov' : ∀ t ∈ teams.filter (fun t => t ∉ ranking),
          (TeamPool.get_team_division dm t).isSome :=
        fun t ht => hcov t (Finset.filter_subset _ _ ht)
      obtain ⟨top, k2, hit, htop⟩ := evaluate_wildcard_iteration_spec tr games dm
        (teams.filter (fun t => t ∉ ranking)) rand k hdec hcov' htne
      have htopmem := Finset.mem_filter.mp htop
      have hnd2 : (ranking ++ [top]).Nodup := by
        rw [List.nodup_append]
        refine ⟨hnd, List.nodup_singleton top, ?_⟩
        intro a ha hb
        rw [List.mem_singleton] at hb
        subst hb
        exact htopmem.2 ha
      have hsub2 : ∀ t ∈ ranking ++ [top], t ∈ teams := by
        intro t ht
        rcases List.mem_append.mp ht with ht' | ht'
        · exact hsub t ht'
        · rw [List.mem_singleton] at ht'
          subst ht'
          exact htopmem.1
      obtain ⟨r', tied', k', hloop, hlen, hnd', hsub'⟩ := ih (ranking ++ [top]) k2 hnd2
        hsub2 (by simp only [List.length_append, List.length_singleton]; omega)
      refine ⟨r', tied', k', ?_, ?_, hnd', hsub'⟩
      · simp only [TeamPool.evaluate_wildcard_loop, hit]
        exact hloop
      · simp only [List.length_append, List.length_singleton] at hlen
        omega

/-- C2 counterexample: a nonempty single-team pool (min(3, 1) = 1) does
not terminate normally — the third loop iteration reaches break_by_random
with an empty tied set and gen_range(0..0) panics (none). -/
theorem claim2_counterexample :
    TeamPool.evaluate_wildcard (fun _ => TeamRecord.new) []
      [("AFC East", [1])] {1} (fun _ => 0) 0 = none := by decide

/-- C2 (amended: for pools of at least three teams; a smaller pool makes
the loop panic, see the counterexample): evaluate_wildcard terminates and
its ranking lists exactly three distinct teams drawn from the input pool,
for every random stream, whenever the games are decided and every pool
team belongs to a division. -/
theorem claim2_wildcard_ranking (tr : Int → TeamRecord) (games : List Game)
    (dm : List (String × List Int)) (teams : Finset Int) (rand : Nat → Nat) (k : Nat)
    (hcard : 3 ≤ teams.card) (hdec : ∀ g ∈ games, g.game_result ≠ none)
    (hcov : ∀ t ∈ teams, (TeamPool.get_team_division dm t).isSome) :
    ∃ r' tied' k', TeamPool.evaluate_wildcard tr games dm teams rand k =
        some (r', tied', k') ∧
      r'.length = 3 ∧ r'.Nodup ∧ ∀ t ∈ r', t ∈ teams := by
  have hfilter : teams.filter (fun t => t ∉ ([] : List Int)) = teams := by
    apply Finset.filter_true_of_mem
    intro x _
    simp
  obtain ⟨r', tied', k', hloop, hlen, hnd, hsub⟩ := evaluate_wildcard_loop_spec tr games
    dm teams rand hdec hcov 3 [] k List.nodup_nil (by simp) (by simpa using hcard)
  rw [hfilter] at hloop
  exact ⟨r', tied', k', hloop, by simpa using hlen, hnd, hsub⟩

/-- Witness for C2's amended theorem at a concrete three-team pool. -/
theorem claim2_witness :
    ∃ r' tied' k', TeamPool.evaluate_wildcard (fun _ => TeamRecord.new) []
        [("AFC East", [1, 2, 3])] {1, 2, 3} (fun _ => 0) 0 = some (r', tied', k') ∧
      r'.length = 3 ∧ r'.Nodup ∧ ∀ t ∈ r', t ∈ ({1, 2, 3} : Finset Int) :=
  claim2_wildcard_ranking (fun _ => TeamRecord.new) [] [("AFC East", [1, 2, 3])]
    {1, 2, 3} (fun _ => 0) 0 (by decide) (by intro g hg; simp at hg) (by decide)

/-- C1: the head-to-head sweep computes the pruned tied set but never
stores it: at a pool where team 1 swept teams 2 and 3, the tied set the
claim expects is the singleton of the sweeper, yet the function returns
the tied set unchanged (the source drops new_tied_teams). -/
theorem claim1_sweep_result_discarded :
    TeamPool.break_by_head_to_head_sweep
        [mk_game 201 team1 team2 (some GameResult.HomeWin),
         mk_game 202 team1 team3 (some GameResult.HomeWin)] {1, 2, 3} =
      some {1, 2, 3} ∧
    TeamPool.sweep_new_tied_teams {1, 2, 3}
        ((TeamPool.h2h_records {1, 2, 3}
            [mk_game 201 team1 team2 (some GameResult.HomeWin),
             mk_game 202 team1 team3 (some GameResult.HomeWin)]).getD
          (fun _ => (0, 0, 0))) = {1} ∧
    ({1, 2, 3} : Finset Int) ≠ {1} := by decide

/-- Number of games between a tied team and a common opponent (the games
whose results the common-games tally inspects). -/
def common_games_count (tied common : Finset Int) (games : List Game) : Nat :=
  games.countP (fun g =>
    decide ((g.home_team.team_id ∈ tied ∧ g.away_team.team_id ∈ common) ∨
      (g.home_team.team_id ∈ common ∧ g.away_team.team_id ∈ tied)))

/-- With no game between tied teams and common opponents the tally fold
is the identity. -/
theorem common_fold_of_count_zero (tied common : Finset Int) :
    ∀ (games : List Game) (st : Nat × (Int → Nat × Nat × Nat)),
      common_games_count tied common games = 0 →
      games.foldlM (TeamPool.common_games_step tied common) st = some st := by
  intro games
  induction games with
  | nil => intro st _; rfl
  | cons g gs ih =>
      intro st hcnt
      rw [common_games_count, List.countP_cons] at hcnt
      have hpg : ¬((g.home_team.team_id ∈ tied ∧ g.away_team.team_id ∈ common) ∨
          (g.home_team.team_id ∈ common ∧ g.away_team.team_id ∈ tied)) := by
        intro hp
        rw [if_pos (by simpa using hp)] at hcnt
        omega
      have hstep : TeamPool.common_games_step tied common st g = some st := by
        simp only [TeamPool.common_games_step]
        rw [if_neg (fun h => hpg (Or.inl h)), if_neg (fun h => hpg (Or.inr h))]
      rw [List.foldlM_cons, hstep]
      simp only [Option.bind_eq_bind, Option.some_bind]
      rw [if_neg (by simpa using hpg)] at hcnt
      exact ih st (by rw [common_games_count]; omega)

/-- C5: the division cascade applies overall percent, division percent,
head-to-head, common games with min_games = 0, conference percent and the
random pick in exactly this order; each criterion leaves a tied set of at
most one team unchanged, and the common-games criterion is also the
identity when the tied teams played zero games against common
opponents. -/
theorem claim5_division_cascade_order :
    (∀ (tr : Int → TeamRecord) (games : List Game) (tied : Finset Int)
        (rand : Nat → Nat) (k : Nat),
      TeamPool.evaluate_division tr games tied rand k =
        (match TeamPool.break_by_head_to_head games
            (TeamPool.break_by_percent tr
              (TeamPool.break_by_percent tr tied "overall") "division") with
         | none => none
         | some t3 =>
           match TeamPool.break_by_common_games games t3 0 with
           | none => none
           | some t4 =>
             match TeamPool.break_by_random
                 (TeamPool.break_by_percent tr t4 "conference") rand k with
             | none => none
             | some (t6, k6) =>
               match (sort_ids t6).head? with
               | none => none
               | some w => some (w, t6, k6))) ∧
    (∀ (tr : Int → TeamRecord) (s : Finset Int) (pt : String), s.card ≤ 1 →
      TeamPool.break_by_percent tr s pt = s) ∧
    (∀ (games : List Game) (s : Finset Int), s.card ≤ 1 →
      TeamPool.break_by_head_to_head games s = some s) ∧
    (∀ (games : List Game) (s : Finset Int) (mg : Nat), s.card ≤ 1 →
      TeamPool.break_by_common_games games s mg = some s) ∧
    (∀ (games : List Game) (s c : Finset Int), 1 < s.card →
      TeamPool.common_opponents s games = some c →
      common_games_count s c games = 0 →
      TeamPool.break_by_common_games games s 0 = some s) := by
  refine ⟨?_, ?_, ?_, ?_, ?_⟩
  · intro tr games tied rand k
    rfl
  · intro tr s pt h
    simp only [TeamPool.break_by_percent]
    rw [if_neg (by omega)]
  · intro games s h
    simp only [TeamPool.break_by_head_to_head]
    rw [if_neg (by omega)]
  · intro games s mg h
    simp only [TeamPool.break_by_common_games]
    rw [if_neg (by omega)]
  · intro games s c h hc hcnt
    simp only [TeamPool.break_by_common_games, if_pos h, hc,
      common_fold_of_count_zero s c games _ hcnt]
    rfl

/-- Witness for C5: the identity behaviors at concrete tied sets. -/
theorem claim5_witness :
    TeamPool.break_by_percent (fun _ => TeamRecord.new) {9} "overall" = {9} ∧
    TeamPool.break_by_head_to_head [] {9} = some {9} ∧
    TeamPool.break_by_common_games [] {9} 4 = some {9} ∧
    TeamPool.break_by_common_games [] {5, 7} 0 = some {5, 7} :=
  ⟨claim5_division_cascade_order.2.1 (fun _ => TeamRecord.new) {9} "overall" (by decide),
   claim5_division_cascade_order.2.2.1 [] {9} (by decide),
   claim5_division_cascade_order.2.2.2.1 [] {9} 4 (by decide),
   claim5_division_cascade_order.2.2.2.2 [] {5, 7} ∅ (by decide) (by decide) (by decide)⟩

/-- Membership after one opponent-accumulation step: a tied team t gains
the away opponent of a game it hosts, and the home opponent of a game it
visits only when that host is not itself tied (the source's else-if). -/
theorem opponent_step_mem (tied : Finset Int) (acc : Int → Finset Int) (g : Game)
    (t o : Int) (ht : t ∈ tied) :
    o ∈ TeamPool.opponent_step tied acc g t ↔ o ∈ acc t ∨
      (g.home_team.team_id = t ∧ g.away_team.team_id = o) ∨
      (g.away_team.team_id = t ∧ g.home_team.team_id = o ∧
        g.home_team.team_id ∉ tied) := by
  simp only [TeamPool.opponent_step]
  by_cases hh : g.home_team.team_id ∈ tied
  · rw [if_pos hh]
    by_cases heq : g.home_team.team_id = t
    · rw [heq, Function.update_same]
      have : ¬(t ∉ tied) := fun h => h ht
      simp only [Finset.mem_insert, heq, this, true_and, and_false, false_and, or_false]
      try tauto
    · rw [Function.update_noteq (fun h => heq h.symm)]
      have hh' : ¬(g.home_team.team_id ∉ tied) := fun h => h hh
      simp only [heq, false_and, and_false, hh', false_or, or_false]
      try tauto
  · rw [if_neg hh]
    have hne1 : g.home_team.team_id ≠ t := fun h => hh (h ▸ ht)
    by_cases ha : g.away_team.team_id ∈ tied
    · rw [if_pos ha]
      by_cases heq : g.away_team.team_id = t
      · rw [heq, Function.update_same]
        simp only [Finset.mem_insert, hne1, false_and, false_or, true_and, hh,
          not_false_iff, and_true]
        try tauto
      · rw [Function.update_noteq (fun h => heq h.symm)]
        simp only [hne1, heq, false_and, false_or, or_false]
    · rw [if_neg ha]
      have hne2 : g.away_team.team_id ≠ t := fun h => ha (h ▸ ht)
      simp only [hne1, hne2, false_and, false_or, or_false]

/-- Membership in the accumulated opponent sets over a game list. -/
theorem team_opponents_foldl_mem (tied : Finset Int) (t o : Int) (ht : t ∈ tied) :
    ∀ (games : List Game) (acc : Int → Finset Int),
      (o ∈ games.foldl (TeamPool.opponent_step tied) acc t ↔
        o ∈ acc t ∨ ∃ g ∈ games,
          (g.home_team.team_id = t ∧ g.away_team.team_id = o) ∨
          (g.away_team.team_id = t ∧ g.home_team.team_id = o ∧
            g.home_team.team_id ∉ tied)) := by
  intro games
  induction games with
  | nil => intro acc; simp
  | cons g gs ih =>
      intro acc
      rw [List.foldl_cons, ih (TeamPool.opponent_step tied acc g),
        opponent_step_mem tied acc g t o ht]
      simp only [List.mem_cons]
      constructor
      · rintro ((h | h) | ⟨g', hg', hP⟩)
        · exact Or.inl h
        · exact Or.inr ⟨g, Or.inl rfl, h⟩
        · exact Or.inr ⟨g', Or.inr hg', hP⟩
      · rintro (h | ⟨g', hg' | hg', hP⟩)
        · exact Or.inl (Or.inl h)
        · subst hg'
          exact Or.inl (Or.inr hP)
        · exact Or.inr ⟨g', hg', hP⟩

/-- The opponent set of a tied team contains exactly the away teams of
its home games and the non-tied home teams of its away games. -/
theorem team_opponents_mem (tied : Finset Int) (games : List Game) (t o : Int)
    (ht : t ∈ tied) :
    o ∈ TeamPool.team_opponents tied games t ↔
      (∃ g ∈ games,
        (g.home_team.team_id = t ∧ g.away_team.team_id = o) ∨
        (g.away_team.team_id = t ∧ g.home_team.team_id = o ∧
          g.home_team.team_id ∉ tied)) := by
  rw [TeamPool.team_opponents, team_opponents_foldl_mem tied t o ht games (fun _ => ∅)]
  simp

/-- Membership in a left fold of intersections. -/
theorem foldl_inter_mem (f : Int → Finset Int) :
    ∀ (l : List Int) (init : Finset Int) (o : Int),
      (o ∈ l.foldl (fun s u => s ∩ f u) init ↔ o ∈ init ∧ ∀ u ∈ l, o ∈ f u) := by
  intro l
  induction l with
  | nil => intro init o; simp
  | cons a gs ih =>
      intro init o
      rw [List.foldl_cons, ih (init ∩ f a)]
      simp only [Finset.mem_inter, List.forall_mem_cons]
      tauto

/-- The common-opponents set is the intersection of the tied teams'
opponent sets. -/
theorem common_opponents_mem (tied : Finset Int) (games : List Game) (c : Finset Int)
    (hc : TeamPool.common_opponents tied games = some c) (o : Int) :
    o ∈ c ↔ ∀ u ∈ tied, o ∈ TeamPool.team_opponents tied games u := by
  rw [TeamPool.common_opponents] at hc
  cases hs : sort_ids tied with
  | nil =>
      rw [hs] at hc
      exact absurd hc (by simp)
  | cons t ts =>
      rw [hs] at hc
      rw [Option.some_inj] at hc
      subst hc
      rw [foldl_inter_mem]
      have hconv : ∀ u : Int, u ∈ tied ↔ u ∈ t :: ts := by
        intro u
        rw [← hs]
        exact mem_sort_ids.symm
      constructor
      · intro h u hu
        rcases List.mem_cons.mp ((hconv u).mp hu) with rfl | hu'
        · exact h.1
        · exact h.2 u hu'
      · intro h
        refine ⟨h t ((hconv t).mpr (List.mem_cons_self t ts)), ?_⟩
        intro u hu
        exact h u ((hconv u).mpr (List.mem_cons_of_mem t hu))

/-- C6 counterexample: tied teams 1 and 2 met once (1 at home); team 1's
opponent set contains 2, but team 2's opponent set is empty — the home
team of a game between two tied teams does not appear in the away team's
opponent set, so the sets are not "exactly the teams played". -/
theorem claim6_counterexample :
    TeamPool.team_opponents {1, 2} [mk_game 20 team1 team2 (some GameResult.HomeWin)] 1
      = {2} ∧
    TeamPool.team_opponents {1, 2} [mk_game 20 team1 team2 (some GameResult.HomeWin)] 2
      = ∅ ∧
    (1 : Int) ∉
      TeamPool.team_opponents {1, 2} [mk_game 20 team1 team2 (some GameResult.HomeWin)] 2
    := by decide

/-- C6 (amended: a tied team's opponent set holds the away teams of the
games it hosted plus the home teams of the games it visited whose host is
not itself tied — when two tied teams meet, only the host records the
visitor; the common set is still the intersection over all tied teams of
these opponent sets). -/
theorem claim6_common_opponent_sets (tied : Finset Int) (games : List Game) :
    (∀ t ∈ tied, ∀ o : Int,
      o ∈ TeamPool.team_opponents tied games t ↔
        (∃ g ∈ games,
          (g.home_team.team_id = t ∧ g.away_team.team_id = o) ∨
          (g.away_team.team_id = t ∧ g.home_team.team_id = o ∧
            g.home_team.team_id ∉ tied))) ∧
    (∀ c, TeamPool.common_opponents tied games = some c →
      ∀ o : Int, (o ∈ c ↔ ∀ u ∈ tied, o ∈ TeamPool.team_opponents tied games u)) :=
  ⟨fun t ht o => team_opponents_mem tied games t o ht,
   fun c hc o => common_opponents_mem tied games c hc o⟩

/-- Witness for C6's amended theorem at the concrete one-game schedule. -/
theorem claim6_witness :
    ((2 : Int) ∈ TeamPool.team_opponents {1, 2}
        [mk_game 20 team1 team2 (some GameResult.HomeWin)] 1 ↔
      (∃ g ∈ [mk_game 20 team1 team2 (some GameResult.HomeWin)],
        (g.home_team.team_id = 1 ∧ g.away_team.team_id = 2) ∨
        (g.away_team.team_id = 1 ∧ g.home_team.team_id = 2 ∧
          g.home_team.team_id ∉ ({1, 2} : Finset Int)))) :=
  (claim6_common_opponent_sets {1, 2}
    [mk_game 20 team1 team2 (some GameResult.HomeWin)]).1 1 (by decide) 2
